import Mathlib

/-!
Verification of the termflix rendering core: the pixel canvas and color
mapper (`src/render/canvas.rs`), the Braille / HalfBlock / Ascii encoders
(`src/render/braille.rs`, `src/render/halfblock.rs`, `canvas.rs`), the
frame-to-frame delta renderer and its escape-sequence parser
(`src/render/delta.rs`), and the output-loop size guard (`src/main.rs`).

Machine integers are embedded as `Nat` (with explicit clamping where the
source clamps), `f64` brightness values as `Rat`, Rust `String`s as
`List Char`, and the imperative loops as fuel-based structural recursion
(every loop in the source has an explicit iteration bound, which the fuel
mirrors, so the fuel never runs out on the wrapper entry points).
-/

namespace Termflix

/-! ## Color and canvas data model (src/render/canvas.rs) -/

/-- `RenderMode` from canvas.rs. -/
inductive RenderMode where
  | Braille
  | HalfBlock
  | Ascii
deriving DecidableEq, Repr

/-- `ColorMode` from canvas.rs. -/
inductive ColorMode where
  | Mono
  | Ansi16
  | Ansi256
  | TrueColor
deriving DecidableEq, Repr

/-- The subset of `crossterm::style::Color` used by the renderer. -/
inductive Color where
  | Rgb (r g b : Nat)
  | AnsiValue (v : Nat)
  | Black
  | DarkRed
  | DarkGreen
  | DarkYellow
  | DarkBlue
  | DarkMagenta
  | DarkCyan
  | Grey
  | DarkGrey
  | Red
  | Green
  | Yellow
  | Blue
  | Magenta
  | Cyan
  | White
deriving DecidableEq, Repr

/-- `Canvas` from canvas.rs: brightness is `f64` (embedded as `Rat`),
colors are `(u8,u8,u8)` triples embedded as `Nat` triples. -/
structure Canvas where
  width : Nat
  height : Nat
  pixels : List Rat
  colors : List (Nat × Nat × Nat)
  render_mode : RenderMode
  color_mode : ColorMode
  char_override : List Char
  color_quant : Nat
deriving DecidableEq, Repr

/-- `Canvas::new`. -/
def Canvas.new (term_cols term_rows : Nat) (render_mode : RenderMode)
    (color_mode : ColorMode) : Canvas :=
  let (px_w, px_h) :=
    match render_mode with
    | .Braille => (term_cols * 2, term_rows * 4)
    | .HalfBlock => (term_cols, term_rows * 2)
    | .Ascii => (term_cols, term_rows)
  let size := px_w * px_h
  { width := px_w
    height := px_h
    pixels := List.replicate size 0
    colors := List.replicate size (255, 255, 255)
    char_override := List.replicate size '\x00'
    render_mode := render_mode
    color_mode := color_mode
    color_quant := 0 }

/-- `Canvas::clear`. -/
def Canvas.clear (cv : Canvas) : Canvas :=
  { cv with
    pixels := List.replicate cv.pixels.length 0
    colors := List.replicate cv.colors.length (255, 255, 255)
    char_override := List.replicate cv.char_override.length '\x00' }

/-- `Canvas::set_char`. -/
def Canvas.set_char (cv : Canvas) (x y : Nat) (ch : Char) (r g b : Nat) : Canvas :=
  if x < cv.width ∧ y < cv.height then
    let idx := y * cv.width + x
    { cv with
      char_override := cv.char_override.set idx ch
      pixels := cv.pixels.set idx 1
      colors := cv.colors.set idx (r, g, b) }
  else cv

/-- `Canvas::set`. -/
def Canvas.set (cv : Canvas) (x y : Nat) (brightness : Rat) : Canvas :=
  if x < cv.width ∧ y < cv.height then
    { cv with pixels := cv.pixels.set (y * cv.width + x) brightness }
  else cv

/-- `Canvas::set_colored`. -/
def Canvas.set_colored (cv : Canvas) (x y : Nat) (brightness : Rat)
    (r g b : Nat) : Canvas :=
  if x < cv.width ∧ y < cv.height then
    let idx := y * cv.width + x
    { cv with
      pixels := cv.pixels.set idx brightness
      colors := cv.colors.set idx (r, g, b) }
  else cv

/-- `Canvas::term_size`. -/
def Canvas.term_size (cv : Canvas) : Nat × Nat :=
  match cv.render_mode with
  | .Braille => (cv.width / 2, cv.height / 4)
  | .HalfBlock => (cv.width, cv.height / 2)
  | .Ascii => (cv.width, cv.height)

/-- The per-channel quantization pass inside `Canvas::map_color`:
`((c as u16 + q/2) / q * q).min(255) as u8` (u16 arithmetic, so no
overflow for c ≤ 255, q ≤ 255). -/
def quantChannel (q c : Nat) : Nat :=
  min ((c + q / 2) / q * q) 255

/-- `Canvas::map_color`. -/
def Canvas.map_color (cv : Canvas) (r0 g0 b0 : Nat) : Color :=
  let rgb :=
    if cv.color_quant > 1 then
      let q := cv.color_quant
      (quantChannel q r0, quantChannel q g0, quantChannel q b0)
    else (r0, g0, b0)
  let r := rgb.1
  let g := rgb.2.1
  let b := rgb.2.2
  match cv.color_mode with
  | .Mono => Color.White
  | .TrueColor => Color.Rgb r g b
  | .Ansi256 =>
      let idx := 16 + 36 * (r / 51) + 6 * (g / 51) + b / 51
      Color.AnsiValue idx
  | .Ansi16 =>
      let brightness := (r + g + b) / 3
      if brightness < 64 then Color.Black
      else if r > g ∧ r > b then
        if brightness > 180 then Color.Red else Color.DarkRed
      else if g > r ∧ g > b then
        if brightness > 180 then Color.Green else Color.DarkGreen
      else if b > r ∧ b > g then
        if brightness > 180 then Color.Blue else Color.DarkBlue
      else if brightness > 180 then Color.White
      else Color.Grey

/-! ## Decimal formatting and parsing

Embeddings of Rust's `usize::to_string` (used via `format!`/`to_string` in
the encoders and the delta renderer) and `str::parse::<usize>` (used by the
frame parser's cursor-position handling). -/

/-- The character for a decimal digit `d < 10`. -/
def digitChar (d : Nat) : Char := Char.ofNat (48 + d)

/-- Fuel-based decimal formatter; the fuel only needs to exceed the number
of digits, and `natToChars` passes `n + 1` which always suffices. -/
def natToCharsAux : Nat → Nat → List Char
  | 0, _ => []
  | fuel + 1, n =>
      if n < 10 then [digitChar n]
      else natToCharsAux fuel (n / 10) ++ [digitChar (n % 10)]

/-- Decimal representation of a `Nat`, embedding `usize::to_string`. -/
def natToChars (n : Nat) : List Char := natToCharsAux (n + 1) n

/-- One digit of `str::parse::<usize>`: accumulate a decimal digit, fail
on any non-digit character. -/
def pdStep (acc : Option Nat) (c : Char) : Option Nat :=
  match acc with
  | none => none
  | some n => if c.isDigit then some (n * 10 + (c.toNat - 48)) else none

/-- Embedding of `str::parse::<usize>`: all-digit, nonempty strings parse
to their decimal value; anything else fails. -/
def parseDigits (cs : List Char) : Option Nat :=
  if cs.isEmpty then none else cs.foldl pdStep (some 0)

/-- `params.parse::<usize>().unwrap_or(1)` from delta.rs. -/
def parseUsizeOr1 (cs : List Char) : Nat := (parseDigits cs).getD 1

/-! ## SGR parameter strings (canvas.rs `color_to_fg`, halfblock.rs `color_to_bg`) -/

/-- `color_to_fg` from canvas.rs. -/
def color_to_fg : Color → List Char
  | .Rgb r g b =>
      "38;2;".data ++ natToChars r ++ ";".data ++ natToChars g ++ ";".data ++ natToChars b
  | .AnsiValue v => "38;5;".data ++ natToChars v
  | .Black => "30".data
  | .DarkRed => "31".data
  | .DarkGreen => "32".data
  | .DarkYellow => "33".data
  | .DarkBlue => "34".data
  | .DarkMagenta => "35".data
  | .DarkCyan => "36".data
  | .Grey => "37".data
  | .DarkGrey => "90".data
  | .Red => "91".data
  | .Green => "92".data
  | .Yellow => "93".data
  | .Blue => "94".data
  | .Magenta => "95".data
  | .Cyan => "96".data
  | .White => "97".data

/-- `color_to_bg` from halfblock.rs. -/
def color_to_bg : Color → List Char
  | .Rgb r g b =>
      "48;2;".data ++ natToChars r ++ ";".data ++ natToChars g ++ ";".data ++ natToChars b
  | .AnsiValue v => "48;5;".data ++ natToChars v
  | .Black => "40".data
  | .DarkRed => "41".data
  | .DarkGreen => "42".data
  | .DarkYellow => "43".data
  | .DarkBlue => "44".data
  | .DarkMagenta => "45".data
  | .DarkCyan => "46".data
  | .Grey => "47".data
  | .DarkGrey => "100".data
  | .Red => "101".data
  | .Green => "102".data
  | .Yellow => "103".data
  | .Blue => "104".data
  | .Magenta => "105".data
  | .Cyan => "106".data
  | .White => "107".data

/-! ## Braille encoder (src/render/braille.rs) -/

/-- `DOT_MAP` from braille.rs: (dx, dy, bit) for the 8 braille dots of a
2×4 sub-pixel block. -/
def DOT_MAP : List (Nat × Nat × Nat) :=
  [(0, 0, 0x01), (0, 1, 0x02), (0, 2, 0x04), (1, 0, 0x08),
   (1, 1, 0x10), (1, 2, 0x20), (0, 3, 0x40), (1, 3, 0x80)]

/-- `THRESHOLD` from braille.rs (`0.3`), as the exact rational 3/10
(`mkRat` keeps it kernel-computable; `THRESHOLD_eq` below records the
value). -/
def THRESHOLD : Rat := mkRat 3 10

/-- The loop-local accumulators of braille.rs's per-cell dot loop. -/
structure BrailleAcc where
  bits : Nat
  total_r : Nat
  total_g : Nat
  total_b : Nat
  lit_count : Nat
deriving DecidableEq, Repr

/-- One iteration of the `for &(dx, dy, bit) in &DOT_MAP` loop. -/
def brailleDotStep (cv : Canvas) (px py : Nat) (acc : BrailleAcc)
    (d : Nat × Nat × Nat) : BrailleAcc :=
  let (dx, dy, bit) := d
  let x := px + dx
  let y := py + dy
  if x < cv.width ∧ y < cv.height then
    let idx := y * cv.width + x
    if cv.pixels.getD idx 0 > THRESHOLD then
      let c := cv.colors.getD idx (255, 255, 255)
      { bits := acc.bits ||| bit
        total_r := acc.total_r + c.1
        total_g := acc.total_g + c.2.1
        total_b := acc.total_b + c.2.2
        lit_count := acc.lit_count + 1 }
    else acc
  else acc

/-- The dot loop of braille.rs for the terminal cell at (row, col). -/
def brailleCell (cv : Canvas) (row col : Nat) : BrailleAcc :=
  DOT_MAP.foldl (brailleDotStep cv (col * 2) (row * 4)) ⟨0, 0, 0, 0, 0⟩

/-- The per-cell emission of braille.rs (glyph plus color-diff-cached SGR);
returns the emitted characters and the new `last_fg`. -/
def brailleEmit (cv : Canvas) (row col : Nat) (last_fg : List Char) :
    List Char × List Char :=
  let acc := brailleCell cv row col
  let ch := Char.ofNat (0x2800 + acc.bits)
  if cv.color_mode ≠ ColorMode.Mono ∧ acc.lit_count > 0 then
    let r := acc.total_r / acc.lit_count
    let g := acc.total_g / acc.lit_count
    let b := acc.total_b / acc.lit_count
    let fg := color_to_fg (cv.map_color r g b)
    if fg ≠ last_fg then ("\x1b[".data ++ fg ++ "m".data ++ [ch], fg)
    else ([ch], last_fg)
  else
    if last_fg ≠ [] then ("\x1b[0m".data ++ [ch], [])
    else ([ch], last_fg)

/-- One column step of braille.rs's row loop: append the cell's emission
and carry the `last_fg` cache. -/
def brailleRowStep (cv : Canvas) (row : Nat) (st : List Char × List Char)
    (col : Nat) : List Char × List Char :=
  let (chunk, fg) := brailleEmit cv row col st.2
  (st.1 ++ chunk, fg)

/-- One output row of braille.rs's `render`, including the row-terminating
reset and absolute cursor move. `last_fg` starts empty because the source
clears it at the end of every row (and it starts empty at frame start). -/
def brailleRow (cv : Canvas) (term_cols row : Nat) : List Char :=
  let st := (List.range term_cols).foldl (brailleRowStep cv row) ([], [])
  st.1 ++ "\x1b[0m\x1b[".data ++ natToChars (row + 2) ++ ";1H".data

/-- `render` from braille.rs. -/
def braille_render (cv : Canvas) : List Char :=
  let term_cols := cv.width / 2
  let term_rows := cv.height / 4
  ((List.range term_rows).map (brailleRow cv term_cols)).flatten

/-! ## Ascii encoder (canvas.rs `render_ascii`) -/

/-- The density ramp `CHARS` from canvas.rs. -/
def ASCII_CHARS : List Char := " .:-=+*#%@".data

/-- The per-cell emission of `render_ascii` (with the same color-diff
caching as braille). `(v * 9.0) as usize` truncates, i.e. floors. -/
def asciiEmit (cv : Canvas) (row col : Nat) (last_fg : List Char) :
    List Char × List Char :=
  let idx := row * cv.width + col
  let v := min (max (cv.pixels.getD idx 0) 0) 1
  let co := cv.char_override.getD idx '\x00'
  let ch :=
    if co ≠ '\x00' then co
    else ASCII_CHARS.getD ((v * 9).floor.toNat) ' '
  if cv.color_mode ≠ ColorMode.Mono then
    let c := cv.colors.getD idx (255, 255, 255)
    let fg := color_to_fg (cv.map_color c.1 c.2.1 c.2.2)
    if fg ≠ last_fg then ("\x1b[".data ++ fg ++ "m".data ++ [ch], fg)
    else ([ch], last_fg)
  else ([ch], last_fg)

/-- One column step of `render_ascii`'s row loop. -/
def asciiRowStep (cv : Canvas) (row : Nat) (st : List Char × List Char)
    (col : Nat) : List Char × List Char :=
  let (chunk, fg) := asciiEmit cv row col st.2
  (st.1 ++ chunk, fg)

/-- One output row of `render_ascii` (the source clears `last_fg` at the
end of every row, so each row starts with an empty cache). -/
def asciiRow (cv : Canvas) (cols row : Nat) : List Char :=
  let st := (List.range cols).foldl (asciiRowStep cv row) ([], [])
  st.1 ++ "\x1b[0m\x1b[".data ++ natToChars (row + 2) ++ ";1H".data

/-- `Canvas::render_ascii`. -/
def ascii_render (cv : Canvas) : List Char :=
  let (cols, rows) := cv.term_size
  ((List.range rows).map (asciiRow cv cols)).flatten

/-! ## HalfBlock encoder (src/render/halfblock.rs) -/

/-- `DARK_THRESHOLD` from halfblock.rs (`0.02`), as the exact rational
1/50. -/
def DARK_THRESHOLD : Rat := mkRat 1 50

/-- halfblock.rs `scale`: `(c as f64 * v.clamp(0.0, 1.0)) as u8`
(truncating float-to-int cast; the product is in [0, 255] so no
saturation occurs). -/
def scaleChannel (c : Nat) (v : Rat) : Nat :=
  ((c : Rat) * min (max v 0) 1).floor.toNat

/-- halfblock.rs `top_color`: the top sub-pixel's color with every channel
pre-scaled by the sub-pixel's brightness (`scale(tr, top_v)` etc.), then
mapped through `Canvas::map_color`. -/
def hbTopColor (cv : Canvas) (row col : Nat) : Color :=
  let top_idx := (row * 2) * cv.width + col
  let top_v := cv.pixels.getD top_idx 0
  let c := cv.colors.getD top_idx (255, 255, 255)
  cv.map_color (scaleChannel c.1 top_v) (scaleChannel c.2.1 top_v) (scaleChannel c.2.2 top_v)

/-- halfblock.rs `bot_color` (bottom sub-pixel, brightness-scaled). -/
def hbBotColor (cv : Canvas) (row col : Nat) : Color :=
  let bot_idx := (row * 2 + 1) * cv.width + col
  let bot_v := cv.pixels.getD bot_idx 0
  let c := cv.colors.getD bot_idx (255, 255, 255)
  cv.map_color (scaleChannel c.1 bot_v) (scaleChannel c.2.1 bot_v) (scaleChannel c.2.2 bot_v)

/-- The per-cell emission of halfblock.rs's `render`; the threaded state is
`(last_fg, last_bg, in_color)`. -/
def hbEmit (cv : Canvas) (row col : Nat) (st : List Char × List Char × Bool) :
    List Char × (List Char × List Char × Bool) :=
  let last_fg := st.1
  let last_bg := st.2.1
  let in_color := st.2.2
  let top_idx := (row * 2) * cv.width + col
  let bot_idx := (row * 2 + 1) * cv.width + col
  let top_v := cv.pixels.getD top_idx 0
  let bot_v := cv.pixels.getD bot_idx 0
  let top_dark := top_v < DARK_THRESHOLD
  let bot_dark := bot_v < DARK_THRESHOLD
  if cv.color_mode = ColorMode.Mono then
    (if ¬top_dark ∧ ¬bot_dark then ['█']
     else if ¬top_dark ∧ bot_dark then ['▀']
     else if top_dark ∧ ¬bot_dark then ['▄']
     else [' '], st)
  else if top_dark ∧ bot_dark then
    if in_color then ("\x1b[0m ".data, ([], [], false))
    else ([' '], st)
  else
    let fg := color_to_fg (hbTopColor cv row col)
    let bg_s := color_to_bg (hbBotColor cv row col)
    let fg_changed := fg ≠ last_fg
    let bg_changed := bg_s ≠ last_bg
    let esc :=
      if fg_changed ∧ bg_changed then "\x1b[".data ++ fg ++ ";".data ++ bg_s ++ "m".data
      else if fg_changed then "\x1b[".data ++ fg ++ "m".data
      else if bg_changed then "\x1b[".data ++ bg_s ++ "m".data
      else []
    (esc ++ ['▀'], (if fg_changed then fg else last_fg,
                    if bg_changed then bg_s else last_bg, true))

/-- One column step of halfblock.rs's row loop. -/
def hbRowStep (cv : Canvas) (row : Nat)
    (acc : List Char × (List Char × List Char × Bool)) (col : Nat) :
    List Char × (List Char × List Char × Bool) :=
  let (chunk, st2) := hbEmit cv row col acc.2
  (acc.1 ++ chunk, st2)

/-- One output row of halfblock.rs's `render`. The caches start empty and
`in_color` false: the source maintains the invariant that `in_color =
false` implies both caches are clear, and resets all three at the end of
any row that was `in_color`. -/
def hbRow (cv : Canvas) (term_cols row : Nat) : List Char :=
  let st := (List.range term_cols).foldl (hbRowStep cv row) ([], ([], [], false))
  st.1 ++ (if st.2.2.2 then "\x1b[0m".data else []) ++
    "\x1b[".data ++ natToChars (row + 2) ++ ";1H".data

/-- `render` from halfblock.rs. -/
def halfblock_render (cv : Canvas) : List Char :=
  ((List.range (cv.height / 2)).map (hbRow cv cv.width)).flatten

/-- `Canvas::render`. -/
def Canvas.render (cv : Canvas) : List Char :=
  match cv.render_mode with
  | .Braille => braille_render cv
  | .HalfBlock => halfblock_render cv
  | .Ascii => ascii_render cv

/-! ## DeltaRenderer and frame parsing (src/render/delta.rs) -/

/-- `Cell` from delta.rs: one terminal cell's resolved visual state. -/
structure Cell where
  ch : Char
  sgr : List Char
deriving DecidableEq, Repr

/-- `Cell::default()`. -/
def Cell.blank : Cell := ⟨' ', []⟩

/-- A parsed frame: the `Vec<Vec<Cell>>` grid of delta.rs. -/
abbrev Grid := List (List Cell)

/-- The CSI terminator bytes recognized by `parse_frame`'s scan loop. -/
def isCsiTerm (c : Char) : Bool :=
  c == 'm' || c == 'H' || c == 'J' || c == 'h' || c == 'l'

/-- The mutable locals of `parse_frame`: the grid under construction, the
tracked cursor, and the currently active SGR parameter string. -/
structure PState where
  grid : Grid
  row : Nat
  col : Nat
  sgr : List Char
deriving DecidableEq, Repr

/-- `grid[row][col] = cell` (out-of-range indices leave the grid unchanged,
matching the `row < rows && col < cols` guard under which this is used). -/
def setCell (g : Grid) (row col : Nat) (cell : Cell) : Grid :=
  g.set row ((g.getD row []).set col cell)

/-- The non-escape branch of `parse_frame`'s loop: store the decoded char
at the tracked cursor if it is inside the `rows × cols` grid (discard it
otherwise), and advance the cursor column either way. -/
def consumeChar (rows cols : Nat) (st : PState) (c : Char) : PState :=
  let g :=
    if st.row < rows ∧ st.col < cols then setCell st.grid st.row st.col ⟨c, st.sgr⟩
    else st.grid
  { st with grid := g, col := st.col + 1 }

/-- The `match terminator` body of `parse_frame`: SGR (`m`) updates the
active SGR string (normalizing `0`/empty to clear and `7` to itself),
cursor position (`H`) moves the tracked cursor (1-indexed, malformed
numbers parse as 1), and `J`/`h`/`l` are ignored. -/
def applyCsi (st : PState) (params : List Char) (t : Char) : PState :=
  if t = 'm' then
    if params = ['0'] ∨ params = [] then { st with sgr := [] }
    else if params = ['7'] then { st with sgr := ['7'] }
    else { st with sgr := params }
  else if t = 'H' then
    match params.findIdx? (fun c => c == ';') with
    | some semi =>
        let r := parseUsizeOr1 (params.take semi)
        let c := parseUsizeOr1 (params.drop (semi + 1))
        { st with row := r - 1, col := c - 1 }
    | none =>
        if params = [] then { st with row := 0, col := 0 }
        else { st with row := parseUsizeOr1 params - 1, col := 0 }
  else st

/-- The main loop of `parse_frame`. Each iteration consumes at least one
character, so fuel `frame.length + 1` never runs out. An `ESC [` whose CSI
sequence reaches the end of the input without a terminator aborts the
parse (the source `break`s), and an `ESC` not followed by `[` is consumed
as an ordinary character, both as in the source. -/
def parseLoop (rows cols : Nat) : Nat → PState → List Char → PState
  | 0, st, _ => st
  | _ + 1, st, [] => st
  | fuel + 1, st, c :: rest =>
      if c = '\x1b' ∧ rest.head? = some '[' then
        let rest1 := rest.tail
        let params := rest1.takeWhile (fun x => !isCsiTerm x)
        match rest1.dropWhile (fun x => !isCsiTerm x) with
        | [] => st
        | t :: rest2 => parseLoop rows cols fuel (applyCsi st params t) rest2
      else parseLoop rows cols fuel (consumeChar rows cols st c) rest

/-- The initial all-blank `rows × cols` grid of `parse_frame`. -/
def blankGrid (rows cols : Nat) : Grid :=
  List.replicate rows (List.replicate cols Cell.blank)

/-- `parse_frame` from delta.rs. -/
def parse_frame (frame : List Char) (cols rows : Nat) : Grid :=
  (parseLoop rows cols (frame.length + 1)
    ⟨blankGrid rows cols, 0, 0, []⟩ frame).grid

/-- `DeltaRenderer` from delta.rs. -/
structure DeltaRenderer where
  prev : Grid
  term_cols : Nat
  term_rows : Nat
  force_full : Bool
deriving DecidableEq, Repr

/-- `DeltaRenderer::new`. -/
def DeltaRenderer.new : DeltaRenderer := ⟨[], 0, 0, true⟩

/-- `DeltaRenderer::invalidate`. -/
def DeltaRenderer.invalidate (st : DeltaRenderer) : DeltaRenderer :=
  { st with force_full := true }

/-- `MIN_SKIP_RUN` from delta.rs. -/
def MIN_SKIP_RUN : Nat := 4

/-- Per-row changed-cell count of `render_delta`'s counting loop (the
`take cols_to_check` mirrors the bound `min(term_cols, lengths)`). -/
def rowChangedCount (cur_row prev_row : List Cell) (term_cols : Nat) : Nat :=
  let cols_to_check := min term_cols (min cur_row.length prev_row.length)
  ((cur_row.zip prev_row).take cols_to_check).countP (fun p => p.1 != p.2)

/-- Total changed-cell count over the first `rows_to_check` row pairs. -/
def changedCount (current prev : Grid) (term_cols rows_to_check : Nat) : Nat :=
  (((current.zip prev).take rows_to_check).map
    (fun p => rowChangedCount p.1 p.2 term_cols)).sum

/-- The look-ahead of the streaming loop: length of the run of unchanged
cells starting at `col` (bounded by `cols`). Called with fuel
`cols - col`, which is exactly the maximal possible run length. -/
def runLen (cur prevR : List Cell) (cols : Nat) : Nat → Nat → Nat
  | 0, _ => 0
  | fuel + 1, col =>
      if col < cols ∧ cur.getD col Cell.blank = prevR.getD col Cell.blank then
        runLen cur prevR cols fuel (col + 1) + 1
      else 0

/-- The absolute cursor move emitted by the delta patch:
`\x1b[{row+1};{col+1}H`. -/
def moveChunk (row col : Nat) : List Char :=
  "\x1b[".data ++ natToChars (row + 1) ++ ";".data ++ natToChars (col + 1) ++ "H".data

/-- The SGR escape emitted by the delta patch when the cell's SGR differs
from `last_sgr`: a plain reset for an empty SGR, `\x1b[{sgr}m` otherwise. -/
def sgrChunk (sgr : List Char) : List Char :=
  if sgr = [] then "\x1b[0m".data
  else "\x1b[".data ++ sgr ++ "m".data

/-- The two nested per-row loops of `render_delta`'s patch construction,
fused into one fuel-based recursion with a phase flag: `inStream = false`
is the outer loop (skip unchanged cells), `inStream = true` the inner
streaming loop. When the inner loop breaks on a skippable run, the outer
loop steps over exactly that run one unchanged cell at a time, so the
translation jumps directly past it. The measure
`2*(cols - col) + (1 if outer)` drops on every step, so fuel
`2*cols + 1` suffices from `(outer, col = 0)`. -/
def deltaRowScan (cur prevR : List Cell) (row cols : Nat) :
    Nat → Bool → Bool → Nat → List Char → List Char × List Char
  | 0, _, _, _, ls => ([], ls)
  | fuel + 1, false, _, col, ls =>
      if col < cols then
        if cur.getD col Cell.blank = prevR.getD col Cell.blank then
          deltaRowScan cur prevR row cols fuel false false (col + 1) ls
        else
          deltaRowScan cur prevR row cols fuel true false col ls
      else ([], ls)
  | fuel + 1, true, placed, col, ls =>
      if col < cols then
        let changed := cur.getD col Cell.blank ≠ prevR.getD col Cell.blank
        let skip_len := runLen cur prevR cols (cols - col) col
        if ¬changed ∧ (skip_len ≥ MIN_SKIP_RUN ∨ col + skip_len ≥ cols) then
          deltaRowScan cur prevR row cols fuel false false (col + skip_len) ls
        else
          let cell := cur.getD col Cell.blank
          let moveOut := if placed then [] else moveChunk row col
          let sgrOut := if cell.sgr ≠ ls then sgrChunk cell.sgr else []
          let ls2 := if cell.sgr ≠ ls then cell.sgr else ls
          let rec2 := deltaRowScan cur prevR row cols fuel true true (col + 1) ls2
          (moveOut ++ sgrOut ++ cell.ch :: rec2.1, rec2.2)
      else ([], ls)

/-- The row loop of `render_delta`'s patch construction; `last_sgr` is
threaded across rows (it is reset per call, not per row). -/
def deltaRows (current prev : Grid) (term_cols : Nat) :
    Nat → Nat → List Char → List Char × List Char
  | 0, _, ls => ([], ls)
  | n + 1, row, ls =>
      let cur_row := current.getD row []
      let prev_row := prev.getD row []
      let cols_to_check := min term_cols (min cur_row.length prev_row.length)
      let rec1 :=
        deltaRowScan cur_row prev_row row cols_to_check
          (2 * cols_to_check + 1) false false 0 ls
      let rec2 := deltaRows current prev term_cols n (row + 1) rec1.2
      (rec1.1 ++ rec2.1, rec2.2)

/-- `DeltaRenderer::render_delta`, in state-passing form: returns the
output string and the updated renderer. -/
def render_delta (st : DeltaRenderer) (full_frame : List Char)
    (term_cols term_rows : Nat) : List Char × DeltaRenderer :=
  let current := parse_frame full_frame term_cols term_rows
  let st :=
    if term_cols ≠ st.term_cols ∨ term_rows ≠ st.term_rows then
      { st with term_cols := term_cols, term_rows := term_rows, force_full := true }
    else st
  if st.force_full ∨ st.prev.isEmpty then
    ("\x1b[H".data ++ full_frame, { st with prev := current, force_full := false })
  else
    let total_cells := term_cols * term_rows
    let rows_to_check := min term_rows (min current.length st.prev.length)
    let total_changed := changedCount current st.prev term_cols rows_to_check
    if 0 < total_cells ∧ total_changed * 100 / total_cells > 70 then
      ("\x1b[H".data ++ full_frame, { st with prev := current })
    else
      let (out, last_sgr) := deltaRows current st.prev term_cols rows_to_check 0 []
      (out ++ (if last_sgr ≠ [] then "\x1b[0m".data else []),
       { st with prev := current })

/-- Replaying an escape stream onto an existing grid with `parse_frame`'s
semantics: cursor at the origin, no active SGR. -/
def applyStream (rows cols : Nat) (g : Grid) (s : List Char) : Grid :=
  (parseLoop rows cols (s.length + 1) ⟨g, 0, 0, []⟩ s).grid

/-! ## Output-loop size guard (src/main.rs, frame loop) -/

/-- The write-time size guard of main.rs's frame loop: after the frame
buffer is assembled, the terminal size is re-queried; a mismatch with the
render-start dimensions discards the frame (nothing is written) and
schedules a rebuild, otherwise the synchronized-output end marker is
appended and the whole buffer is written. Returns
`(bytes written, cols, rows, needs_rebuild)`. -/
def sizeGuardStep (cols rows : Nat) (needs_rebuild : Bool) (frame_buf : List Char)
    (final_cols final_rows : Nat) : List Char × Nat × Nat × Bool :=
  if final_cols ≠ cols ∨ final_rows ≠ rows then
    ([], final_cols, final_rows, true)
  else
    (frame_buf ++ "\x1b[?2026l".data, cols, rows, needs_rebuild)

/-! ## Helper notions used by the theorems -/

/-- The brightness of the sub-pixel addressed by braille dot `d = (dx, dy,
bit)` of terminal cell `(row, col)`. -/
def dotPix (cv : Canvas) (row col : Nat) (d : Nat × Nat × Nat) : Rat :=
  cv.pixels.getD ((row * 4 + d.2.1) * cv.width + (col * 2 + d.1)) 0

/-- The RGB triple of the sub-pixel addressed by braille dot `d`. -/
def dotColor (cv : Canvas) (row col : Nat) (d : Nat × Nat × Nat) : Nat × Nat × Nat :=
  cv.colors.getD ((row * 4 + d.2.1) * cv.width + (col * 2 + d.1)) (255, 255, 255)

/-- Invariant of every SGR string stored by `parse_frame` into a cell or
into its running state: it is not the literal `"0"` (that form is
normalized to the empty string) and contains no CSI terminator byte
(it was produced by a `takeWhile` over non-terminators). Re-emitting such
a string as `\x1b[{sgr}m` parses back to exactly the same string. -/
def sgrOk (s : List Char) : Prop :=
  s ≠ ['0'] ∧ ∀ c ∈ s, isCsiTerm c = false

/-- Cell lookup in a grid (blank outside the materialized lists). -/
def cellGet (g : Grid) (row col : Nat) : Cell :=
  (g.getD row []).getD col Cell.blank

/-- A grid materialized with exactly `rows` rows of `cols` cells. -/
def GridShape (g : Grid) (rows cols : Nat) : Prop :=
  g.length = rows ∧ ∀ i, i < rows → (g.getD i []).length = cols

/-- `parseLoop` at its canonical fuel (one fuel unit per loop iteration,
and every iteration consumes at least one character, so `length + 1`
always suffices; `parseLoop_fuel_invariant` below shows any fuel
≥ `length` gives the same result). -/
def parseRun (rows cols : Nat) (st : PState) (cs : List Char) : PState :=
  parseLoop rows cols (cs.length + 1) st cs

/-! ## Concrete scenario data -/

/-- The spec's concrete braille scenario: a 4×8-pixel canvas (2×2 terminal
cells), all 8 sub-pixels of the top-left cell at full brightness, all
others at 0. -/
def brailleScenarioCanvas : Canvas :=
  { width := 4
    height := 8
    pixels := (List.range 32).map (fun i => if i % 4 < 2 ∧ i / 4 < 4 then 1 else 0)
    colors := List.replicate 32 (255, 255, 255)
    render_mode := .Braille
    color_mode := .Mono
    char_override := List.replicate 32 '\x00'
    color_quant := 0 }

/-- A 1×1 Ascii canvas whose only cell has a newline `char_override`. -/
def asciiNewlineCanvas : Canvas :=
  { width := 1
    height := 1
    pixels := [1]
    colors := [(255, 255, 255)]
    render_mode := .Ascii
    color_mode := .Mono
    char_override := ['\n']
    color_quant := 0 }

/-- A 1-cell HalfBlock canvas in TrueColor mode with distinct top and
bottom colors. -/
def trueColorHalfBlockCanvas : Canvas :=
  { width := 1
    height := 2
    pixels := [1, 1]
    colors := [(10, 20, 30), (40, 50, 60)]
    render_mode := .HalfBlock
    color_mode := .TrueColor
    char_override := ['\x00', '\x00']
    color_quant := 0 }

/-- A 1-cell HalfBlock canvas in Ansi16 mode with a bright red top pixel
and a bright blue bottom pixel. -/
def ansi16HalfBlockCanvas : Canvas :=
  { width := 1
    height := 2
    pixels := [1, 1]
    colors := [(255, 0, 0), (0, 0, 255)]
    render_mode := .HalfBlock
    color_mode := .Ansi16
    char_override := ['\x00', '\x00']
    color_quant := 0 }

/-! # Theorems -/

/-- Claim C7: for every quant step `q` with `1 < q ≤ 255` and every channel
value `c ≤ 255`, the quantized channel is a multiple of `q` or the 255
clamp, and within `q/2` of the original value (stated as
`2·|quant − c| ≤ q`, i.e. distance at most `q/2`); and `map_color` in
TrueColor mode with `color_quant = 0` is the identity embedding
`(r,g,b) ↦ Rgb r g b`. -/
theorem map_color_quant_bound_and_truecolor_identity :
    (∀ q c : Nat, 1 < q → q ≤ 255 → c ≤ 255 →
      (quantChannel q c % q = 0 ∨ quantChannel q c = 255) ∧
      2 * quantChannel q c ≤ 2 * c + q ∧ 2 * c ≤ 2 * quantChannel q c + q) ∧
    (∀ cv : Canvas, cv.color_mode = ColorMode.TrueColor → cv.color_quant = 0 →
      ∀ r g b : Nat, cv.map_color r g b = Color.Rgb r g b) := by
  constructor
  · intro q c hq _hq255 hc
    have hq0 : 0 < q := by omega
    unfold quantChannel
    have hdm := Nat.div_add_mod (c + q / 2) q
    have hmod : (c + q / 2) % q < q := Nat.mod_lt _ hq0
    have hmul : (c + q / 2) / q * q % q = 0 := Nat.mul_mod_left _ _
    have hcomm : (c + q / 2) / q * q = q * ((c + q / 2) / q) := Nat.mul_comm _ _
    rcases le_total ((c + q / 2) / q * q) 255 with h | h
    · rw [min_eq_left h]
      exact ⟨Or.inl hmul, by omega, by omega⟩
    · rw [min_eq_right h]
      exact ⟨Or.inr rfl, by omega, by omega⟩
  · intro cv hmode hquant r g b
    simp [Canvas.map_color, hmode, hquant]

/-- Witness for C7 at `q = 4`, `c = 10` and a concrete TrueColor canvas. -/
theorem map_color_quant_bound_witness :
    ((quantChannel 4 10 % 4 = 0 ∨ quantChannel 4 10 = 255) ∧
      2 * quantChannel 4 10 ≤ 2 * 10 + 4 ∧ 2 * 10 ≤ 2 * quantChannel 4 10 + 4) ∧
    (Canvas.new 3 2 .Ascii .TrueColor).map_color 7 8 9 = Color.Rgb 7 8 9 :=
  ⟨map_color_quant_bound_and_truecolor_identity.1 4 10 (by decide) (by decide) (by decide),
   map_color_quant_bound_and_truecolor_identity.2 (Canvas.new 3 2 .Ascii .TrueColor)
     rfl rfl 7 8 9⟩

/-- Claim C8: `set_colored`, `set_char` and `set` with `x ≥ width` or
`y ≥ height` return the canvas completely unchanged. -/
theorem canvas_oob_noop (cv : Canvas) (x y : Nat)
    (h : cv.width ≤ x ∨ cv.height ≤ y) :
    (∀ brightness r g b, cv.set_colored x y brightness r g b = cv) ∧
    (∀ ch r g b, cv.set_char x y ch r g b = cv) ∧
    (∀ brightness, cv.set x y brightness = cv) := by
  have hcond : ¬(x < cv.width ∧ y < cv.height) := by omega
  refine ⟨fun brightness r g b => ?_, fun ch r g b => ?_, fun brightness => ?_⟩ <;>
    simp [Canvas.set_colored, Canvas.set_char, Canvas.set, hcond]

/-- Witness for C8 on a 2×2 Ascii canvas at the out-of-range `x = 5`. -/
theorem canvas_oob_noop_witness :
    (Canvas.new 2 2 .Ascii .Mono).set_colored 5 0 1 1 2 3 = Canvas.new 2 2 .Ascii .Mono ∧
    (Canvas.new 2 2 .Ascii .Mono).set_char 5 0 'x' 1 2 3 = Canvas.new 2 2 .Ascii .Mono ∧
    (Canvas.new 2 2 .Ascii .Mono).set 5 0 1 = Canvas.new 2 2 .Ascii .Mono := by
  have h := canvas_oob_noop (Canvas.new 2 2 .Ascii .Mono) 5 0 (Or.inl (by decide))
  exact ⟨h.1 1 1 2 3, h.2.1 'x' 1 2 3, h.2.2 1⟩

/-- Claim C10: when the re-queried terminal dimensions differ from those
the frame was rendered for, the size guard writes zero bytes of the frame
buffer and schedules a rebuild. -/
theorem size_guard_discards_stale_frame (cols rows final_cols final_rows : Nat)
    (needs_rebuild : Bool) (frame_buf : List Char)
    (h : final_cols ≠ cols ∨ final_rows ≠ rows) :
    (sizeGuardStep cols rows needs_rebuild frame_buf final_cols final_rows).1 = [] ∧
    (sizeGuardStep cols rows needs_rebuild frame_buf final_cols final_rows).2.2.2 = true := by
  simp [sizeGuardStep, if_pos h]

/-- Witness for C10: a 80×24 frame hits a 79×24 re-query. -/
theorem size_guard_discards_stale_frame_witness :
    (sizeGuardStep 80 24 false "frame".data 79 24).1 = [] ∧
    (sizeGuardStep 80 24 false "frame".data 79 24).2.2.2 = true :=
  size_guard_discards_stale_frame 80 24 79 24 false "frame".data (Or.inl (by decide))

/-! ## Decimal round-trip lemmas -/

lemma THRESHOLD_eq : THRESHOLD = 3 / 10 := by
  norm_num [THRESHOLD]

lemma DARK_THRESHOLD_eq : DARK_THRESHOLD = 1 / 50 := by
  norm_num [DARK_THRESHOLD]

lemma digitChar_props {d : Nat} (h : d < 10) :
    (digitChar d).isDigit = true ∧ isCsiTerm (digitChar d) = false ∧
    (digitChar d == ';') = false ∧ digitChar d ≠ '\x1b' ∧ digitChar d ≠ '\n' ∧
    (digitChar d).toNat = 48 + d := by
  interval_cases d <;> exact ⟨rfl, rfl, rfl, by decide, by decide, by decide⟩

lemma natToCharsAux_digits :
    ∀ fuel n, ∀ c ∈ natToCharsAux fuel n, ∃ d, d < 10 ∧ c = digitChar d := by
  intro fuel
  induction fuel with
  | zero => intro n c hc; simp [natToCharsAux] at hc
  | succ fuel ih =>
      intro n c hc
      by_cases h : n < 10
      · simp [natToCharsAux, h] at hc
        exact ⟨n, h, hc⟩
      · simp [natToCharsAux, h] at hc
        rcases hc with hc | hc
        · exact ih _ _ hc
        · exact ⟨n % 10, Nat.mod_lt _ (by omega), hc⟩

lemma natToChars_digits (n : Nat) :
    ∀ c ∈ natToChars n, ∃ d, d < 10 ∧ c = digitChar d :=
  natToCharsAux_digits _ n

lemma natToCharsAux_ne_nil (fuel n : Nat) (h : 0 < fuel) :
    natToCharsAux fuel n ≠ [] := by
  cases fuel with
  | zero => omega
  | succ fuel =>
      by_cases hn : n < 10 <;> simp [natToCharsAux, hn]

lemma natToChars_ne_nil (n : Nat) : natToChars n ≠ [] :=
  natToCharsAux_ne_nil _ _ (by omega)

lemma pdStep_digit (n : Nat) {d : Nat} (hd : d < 10) :
    pdStep (some n) (digitChar d) = some (n * 10 + d) := by
  have h := digitChar_props hd
  simp [pdStep, h.1, h.2.2.2.2.2]

lemma foldl_pdStep_natToCharsAux :
    ∀ fuel n, n < fuel → ∀ a,
      List.foldl pdStep (some a) (natToCharsAux fuel n)
        = some (a * 10 ^ (natToCharsAux fuel n).length + n) := by
  intro fuel
  induction fuel with
  | zero => omega
  | succ fuel ih =>
      intro n hn a
      by_cases h : n < 10
      · simp [natToCharsAux, h, pdStep_digit a h]
      · have h10 : n / 10 < fuel := by
          have hlt : n / 10 < n := Nat.div_lt_self (by omega) (by norm_num)
          omega
        have hmod : n % 10 < 10 := Nat.mod_lt _ (by norm_num)
        have hdm := Nat.div_add_mod n 10
        simp only [natToCharsAux, if_neg h, List.foldl_append, ih (n / 10) h10 a,
          List.foldl_cons, List.foldl_nil, pdStep_digit _ hmod, List.length_append,
          List.length_singleton]
        congr 1
        ring_nf
        omega

lemma parseDigits_natToChars (n : Nat) : parseDigits (natToChars n) = some n := by
  unfold parseDigits
  rw [if_neg (by simp [natToChars_ne_nil n])]
  rw [show natToChars n = natToCharsAux (n + 1) n from rfl,
    foldl_pdStep_natToCharsAux (n + 1) n (by omega) 0]
  simp

lemma parseUsizeOr1_natToChars (n : Nat) : parseUsizeOr1 (natToChars n) = n := by
  simp [parseUsizeOr1, parseDigits_natToChars]

/-! ## takeWhile / dropWhile / findIdx? helpers -/

lemma takeWhile_append_all {α : Type} {p : α → Bool} :
    ∀ {l1 : List α} (l2 : List α), (∀ a ∈ l1, p a = true) →
      (l1 ++ l2).takeWhile p = l1 ++ l2.takeWhile p := by
  intro l1
  induction l1 with
  | nil => intro l2 _; simp
  | cons a l1 ih =>
      intro l2 h
      simp only [List.cons_append, List.takeWhile_cons, h a (by simp), if_true]
      rw [ih l2 (fun x hx => h x (by simp [hx]))]

lemma dropWhile_append_all {α : Type} {p : α → Bool} :
    ∀ {l1 : List α} (l2 : List α), (∀ a ∈ l1, p a = true) →
      (l1 ++ l2).dropWhile p = l2.dropWhile p := by
  intro l1
  induction l1 with
  | nil => intro l2 _; simp
  | cons a l1 ih =>
      intro l2 h
      simp only [List.cons_append, List.dropWhile_cons, h a (by simp)]
      exact ih l2 (fun x hx => h x (by simp [hx]))

lemma length_dropWhile_le {α : Type} (p : α → Bool) :
    ∀ l : List α, (l.dropWhile p).length ≤ l.length := by
  intro l
  induction l with
  | nil => simp
  | cons a l ih =>
      by_cases h : p a
      · simp only [List.dropWhile_cons, h, if_true, List.length_cons]
        omega
      · simp [List.dropWhile_cons, h]

lemma findIdx_semi_aux (l1 : List Char) (l2 : List Char)
    (h : ∀ a ∈ l1, (a == ';') = false) :
    ∀ i, List.findIdx? (fun c => c == ';') (l1 ++ ';' :: l2) i = some (i + l1.length) := by
  induction l1 with
  | nil => intro i; simp [List.findIdx?_cons]
  | cons a l1 ih =>
      intro i
      simp only [List.cons_append, List.findIdx?_cons, h a (by simp), if_neg, Bool.false_eq_true,
        not_false_iff, if_false]
      rw [ih (fun x hx => h x (by simp [hx])) (i + 1)]
      congr 1
      simp
      omega

lemma findIdx_semi (l1 l2 : List Char) (h : ∀ a ∈ l1, (a == ';') = false) :
    List.findIdx? (fun c => c == ';') (l1 ++ ';' :: l2) = some l1.length := by
  have := findIdx_semi_aux l1 l2 h 0
  simpa using this

lemma findIdx_none_aux {p : Char → Bool} :
    ∀ (l : List Char), (∀ a ∈ l, p a = false) → ∀ i, List.findIdx? p l i = none := by
  intro l
  induction l with
  | nil => intro _ i; simp
  | cons a l ih =>
      intro h i
      simp only [List.findIdx?_cons, h a (by simp), Bool.false_eq_true, if_false]
      exact ih (fun x hx => h x (by simp [hx])) (i + 1)

/-! ## parseLoop stepping and fuel independence -/

lemma parseLoop_nil (rows cols fuel : Nat) (st : PState) :
    parseLoop rows cols fuel st [] = st := by
  cases fuel <;> rfl

lemma parseLoop_cons_esc (rows cols fuel : Nat) (st : PState) (body : List Char) :
    parseLoop rows cols (fuel + 1) st ('\x1b' :: '[' :: body) =
      match body.dropWhile (fun c => !isCsiTerm c) with
      | [] => st
      | t :: rest2 =>
          parseLoop rows cols fuel
            (applyCsi st (body.takeWhile (fun c => !isCsiTerm c)) t) rest2 := by
  rw [parseLoop]
  rw [if_pos ⟨rfl, rfl⟩]
  rfl

lemma parseLoop_cons_char (rows cols fuel : Nat) (st : PState) (c : Char)
    (rest : List Char) (h : ¬(c = '\x1b' ∧ rest.head? = some '[')) :
    parseLoop rows cols (fuel + 1) st (c :: rest) =
      parseLoop rows cols fuel (consumeChar rows cols st c) rest := by
  rw [parseLoop]
  rw [if_neg h]

lemma parseLoop_fuel_invariant (rows cols : Nat) :
    ∀ fuel fuel' (st : PState) (cs : List Char),
      cs.length ≤ fuel → cs.length ≤ fuel' →
      parseLoop rows cols fuel st cs = parseLoop rows cols fuel' st cs := by
  intro fuel
  induction fuel with
  | zero =>
      intro fuel' st cs h _
      have : cs = [] := List.length_eq_zero.mp (by omega)
      subst this
      rw [parseLoop_nil, parseLoop_nil]
  | succ fuel ih =>
      intro fuel' st cs h h'
      cases cs with
      | nil => rw [parseLoop_nil, parseLoop_nil]
      | cons c rest =>
          cases fuel' with
          | zero => simp at h'
          | succ fuel' =>
              by_cases hc : c = '\x1b' ∧ rest.head? = some '['
              · obtain ⟨hc1, hc2⟩ := hc
                subst hc1
                cases rest with
                | nil => simp at hc2
                | cons r rs =>
                    have hr : r = '[' := by simpa using hc2
                    subst hr
                    rw [parseLoop_cons_esc, parseLoop_cons_esc]
                    cases hdrop : rs.dropWhile (fun c => !isCsiTerm c) with
                    | nil => rfl
                    | cons t rest2 =>
                        have hlen : rest2.length + 1 ≤ rs.length := by
                          have := length_dropWhile_le (fun c => !isCsiTerm c) rs
                          rw [hdrop] at this
                          simpa using this
                        apply ih
                        · simp at h; omega
                        · simp at h'; omega
              · rw [parseLoop_cons_char _ _ _ _ _ _ hc, parseLoop_cons_char _ _ _ _ _ _ hc]
                apply ih
                · simp at h; omega
                · simp at h'; omega

lemma parseRun_chunk (rows cols : Nat) (st st' : PState) (chunk rest : List Char)
    (hne : chunk ≠ [])
    (h : ∀ fuel, parseLoop rows cols (fuel + 1) st (chunk ++ rest)
          = parseLoop rows cols fuel st' rest) :
    parseRun rows cols st (chunk ++ rest) = parseRun rows cols st' rest := by
  unfold parseRun
  have hchunk : 1 ≤ chunk.length := by
    cases chunk with
    | nil => exact absurd rfl hne
    | cons a l => simp
  rw [h ((chunk ++ rest).length)]
  apply parseLoop_fuel_invariant
  · simp only [List.length_append]
    omega
  · omega

/-! ## Grid shape preservation (parser totality, claim C9) -/

lemma getD_set_self {α : Type} {l : List α} {i : Nat} (h : i < l.length) (a d : α) :
    (l.set i a).getD i d = a := by
  rw [List.getD_eq_getElem?_getD, List.getElem?_set_self (by omega)]
  rfl

lemma getD_set_ne {α : Type} {l : List α} {i j : Nat} (h : i ≠ j) (a d : α) :
    (l.set i a).getD j d = l.getD j d := by
  rw [List.getD_eq_getElem?_getD, List.getElem?_set_ne h, ← List.getD_eq_getElem?_getD]

lemma getD_set_oob {α : Type} {l : List α} {i : Nat} (h : l.length ≤ i) (a : α) :
    l.set i a = l :=
  List.set_eq_of_length_le h

lemma blankGrid_shape (rows cols : Nat) : GridShape (blankGrid rows cols) rows cols := by
  constructor
  · simp [blankGrid]
  · intro i hi
    simp [blankGrid, List.getD_eq_getElem?_getD, List.getElem?_replicate, hi]

lemma setCell_shape {g : Grid} {rows cols : Nat} (h : GridShape g rows cols)
    (r c : Nat) (cell : Cell) : GridShape (setCell g r c cell) rows cols := by
  obtain ⟨h1, h2⟩ := h
  constructor
  · simp [setCell, h1]
  · intro i hi
    unfold setCell
    by_cases hri : r = i
    · subst hri
      rw [getD_set_self (by omega), List.length_set]
      exact h2 r hi
    · rw [getD_set_ne hri]
      exact h2 i hi

lemma consumeChar_shape {st : PState} {rows cols : Nat}
    (h : GridShape st.grid rows cols) (c : Char) :
    GridShape (consumeChar rows cols st c).grid rows cols := by
  unfold consumeChar
  by_cases hb : st.row < rows ∧ st.col < cols
  · simpa [hb] using setCell_shape h st.row st.col ⟨c, st.sgr⟩
  · simpa [hb] using h

lemma applyCsi_grid (st : PState) (params : List Char) (t : Char) :
    (applyCsi st params t).grid = st.grid := by
  unfold applyCsi
  by_cases h1 : t = 'm'
  · rw [if_pos h1]
    split_ifs <;> rfl
  · rw [if_neg h1]
    by_cases h2 : t = 'H'
    · rw [if_pos h2]
      cases hf : List.findIdx? (fun c => c == ';') params with
      | some semi => rfl
      | none => split_ifs <;> rfl
    · rw [if_neg h2]

lemma parseLoop_shape (rows cols : Nat) :
    ∀ (fuel : Nat) (st : PState) (cs : List Char),
      GridShape st.grid rows cols →
      GridShape (parseLoop rows cols fuel st cs).grid rows cols := by
  intro fuel
  induction fuel with
  | zero => intro st cs h; exact h
  | succ fuel ih =>
      intro st cs h
      cases cs with
      | nil => rw [parseLoop_nil]; exact h
      | cons c rest =>
          by_cases hc : c = '\x1b' ∧ rest.head? = some '['
          · obtain ⟨hc1, hc2⟩ := hc
            subst hc1
            cases rest with
            | nil => simp at hc2
            | cons r rs =>
                have hr : r = '[' := by simpa using hc2
                subst hr
                rw [parseLoop_cons_esc]
                cases hdrop : rs.dropWhile (fun c => !isCsiTerm c) with
                | nil => exact h
                | cons t rest2 =>
                    apply ih
                    rw [applyCsi_grid]
                    exact h
          · rw [parseLoop_cons_char _ _ _ _ _ _ hc]
            exact ih _ _ (consumeChar_shape h c)

lemma parse_frame_shape (frame : List Char) (cols rows : Nat) :
    GridShape (parse_frame frame cols rows) rows cols :=
  parseLoop_shape rows cols _ _ frame (blankGrid_shape rows cols)

/-- Claim C9: `parse_frame` is total (it is a terminating function on all
inputs in this embedding) and on every input — truncated, malformed or
arbitrary — returns a grid of exactly `rows` rows, each of exactly `cols`
cells; and a character decoded while the tracked cursor is outside the
`rows × cols` range is discarded (the grid is untouched) rather than
written. -/
theorem parse_frame_total_shape (frame : List Char) (cols rows : Nat) :
    (parse_frame frame cols rows).length = rows ∧
    (∀ r ∈ parse_frame frame cols rows, r.length = cols) ∧
    (∀ (st : PState) (c : Char), rows ≤ st.row ∨ cols ≤ st.col →
        (consumeChar rows cols st c).grid = st.grid) := by
  obtain ⟨h1, h2⟩ := parse_frame_shape frame cols rows
  refine ⟨h1, ?_, ?_⟩
  · intro r hr
    obtain ⟨i, hi, rfl⟩ := List.mem_iff_getElem.mp hr
    have h3 := h2 i (by omega)
    rwa [List.getD_eq_getElem?_getD, List.getElem?_eq_getElem hi] at h3
  · intro st c h
    have hb : ¬(st.row < rows ∧ st.col < cols) := by omega
    simp [consumeChar, hb]

/-- Witness for C9 at a malformed input (truncated CSI) and an
out-of-range cursor state. -/
theorem parse_frame_total_shape_witness :
    (parse_frame "ab\x1b[99;xyz".data 2 1).length = 1 ∧
    (∀ r ∈ parse_frame "ab\x1b[99;xyz".data 2 1, r.length = 2) ∧
    (consumeChar 1 2 ⟨blankGrid 1 2, 7, 0, []⟩ 'Q').grid = blankGrid 1 2 := by
  have h := parse_frame_total_shape "ab\x1b[99;xyz".data 2 1
  exact ⟨h.1, h.2.1, h.2.2 ⟨blankGrid 1 2, 7, 0, []⟩ 'Q' (Or.inl (by decide))⟩

/-! ## Parsing the delta renderer's emitted chunks -/

lemma esc_lb_data : "\x1b[".data = ['\x1b', '['] := rfl

lemma semi_data : ";".data = [';'] := rfl

lemma cH_data : "H".data = ['H'] := rfl

lemma m_data : "m".data = ['m'] := rfl

lemma reset_data : "\x1b[0m".data = ['\x1b', '[', '0', 'm'] := rfl

lemma home_data : "\x1b[H".data = ['\x1b', '[', 'H'] := rfl

lemma natToChars_notTerm (n : Nat) :
    ∀ a ∈ natToChars n, (!isCsiTerm a) = true := by
  intro a ha
  obtain ⟨d, hd, rfl⟩ := natToChars_digits _ _ ha
  simp [(digitChar_props hd).2.1]

lemma natToChars_ne_semi (n : Nat) :
    ∀ a ∈ natToChars n, (a == ';') = false := by
  intro a ha
  obtain ⟨d, hd, rfl⟩ := natToChars_digits _ _ ha
  exact (digitChar_props hd).2.2.1

lemma applyCsi_move (st : PState) (r c : Nat) :
    applyCsi st (natToChars (r + 1) ++ ';' :: natToChars (c + 1)) 'H'
      = { st with row := r, col := c } := by
  unfold applyCsi
  rw [if_neg (by decide), if_pos rfl]
  rw [findIdx_semi _ _ (natToChars_ne_semi (r + 1))]
  have htake : (natToChars (r + 1) ++ ';' :: natToChars (c + 1)).take
      (natToChars (r + 1)).length = natToChars (r + 1) := List.take_left _ _
  have hsplit : natToChars (r + 1) ++ ';' :: natToChars (c + 1)
      = (natToChars (r + 1) ++ [';']) ++ natToChars (c + 1) := by
    simp
  have hdrop : (natToChars (r + 1) ++ ';' :: natToChars (c + 1)).drop
      ((natToChars (r + 1)).length + 1) = natToChars (c + 1) := by
    rw [hsplit]
    have hlen : (natToChars (r + 1)).length + 1 = (natToChars (r + 1) ++ [';']).length := by
      simp
    rw [hlen, List.drop_left]
  simp only [htake, hdrop, parseUsizeOr1_natToChars, Nat.add_sub_cancel]

lemma parseLoop_moveChunk (rows cols fuel : Nat) (st : PState) (r c : Nat)
    (rest : List Char) :
    parseLoop rows cols (fuel + 1) st (moveChunk r c ++ rest) =
      parseLoop rows cols fuel { st with row := r, col := c } rest := by
  have hA : ∀ ch ∈ natToChars (r + 1) ++ ';' :: natToChars (c + 1),
      (!isCsiTerm ch) = true := by
    intro ch hch
    simp only [List.mem_append, List.mem_cons] at hch
    rcases hch with h | h | h
    · exact natToChars_notTerm _ ch h
    · subst h; rfl
    · exact natToChars_notTerm _ ch h
  have hbody : moveChunk r c ++ rest
      = '\x1b' :: '[' :: ((natToChars (r + 1) ++ ';' :: natToChars (c + 1)) ++ 'H' :: rest) := by
    simp [moveChunk, esc_lb_data, semi_data, cH_data]
  rw [hbody, parseLoop_cons_esc]
  rw [show natToChars (r + 1) ++ ';' :: natToChars (c + 1) ++ 'H' :: rest
      = (natToChars (r + 1) ++ ';' :: natToChars (c + 1)) ++ 'H' :: rest from by simp]
  rw [dropWhile_append_all _ hA, takeWhile_append_all _ hA]
  rw [show List.dropWhile (fun x => !isCsiTerm x) ('H' :: rest) = 'H' :: rest from by
    rw [List.dropWhile_cons, if_neg (by decide)]]
  rw [show List.takeWhile (fun x => !isCsiTerm x) ('H' :: rest) = [] from by
    rw [List.takeWhile_cons, if_neg (by decide)]]
  rw [List.append_nil]
  exact congrArg (fun s => parseLoop rows cols fuel s rest) (applyCsi_move st r c)

lemma applyCsi_sgr_set (st : PState) (s : List Char) (hOk : sgrOk s) (hne : s ≠ []) :
    applyCsi st s 'm' = { st with sgr := s } := by
  unfold applyCsi
  rw [if_pos rfl]
  rw [if_neg (by
    rintro (h | h)
    · exact hOk.1 h
    · exact hne h)]
  by_cases h7 : s = ['7']
  · rw [if_pos h7, h7]
  · rw [if_neg h7]

lemma parseLoop_sgrChunk (rows cols fuel : Nat) (st : PState) (s : List Char)
    (hOk : sgrOk s) (rest : List Char) :
    parseLoop rows cols (fuel + 1) st (sgrChunk s ++ rest) =
      parseLoop rows cols fuel { st with sgr := s } rest := by
  by_cases hs : s = []
  · subst hs
    rw [show sgrChunk [] ++ rest = '\x1b' :: '[' :: '0' :: 'm' :: rest from by
      simp [sgrChunk, reset_data]]
    rw [parseLoop_cons_esc]
    rw [show List.dropWhile (fun x => !isCsiTerm x) ('0' :: 'm' :: rest) = 'm' :: rest from by
      rw [List.dropWhile_cons, if_pos (by decide), List.dropWhile_cons, if_neg (by decide)]]
    rw [show List.takeWhile (fun x => !isCsiTerm x) ('0' :: 'm' :: rest) = ['0'] from by
      rw [List.takeWhile_cons, if_pos (by decide), List.takeWhile_cons, if_neg (by decide)]]
    exact congrArg (fun q => parseLoop rows cols fuel q rest) (by
      unfold applyCsi
      rw [if_pos rfl, if_pos (Or.inl rfl)])
  · have hall : ∀ a ∈ s, (!isCsiTerm a) = true := by
      intro a ha
      simp [hOk.2 a ha]
    rw [show sgrChunk s ++ rest = '\x1b' :: '[' :: (s ++ 'm' :: rest) from by
      simp [sgrChunk, hs, esc_lb_data, m_data]]
    rw [parseLoop_cons_esc]
    rw [dropWhile_append_all _ hall, takeWhile_append_all _ hall]
    rw [show List.dropWhile (fun x => !isCsiTerm x) ('m' :: rest) = 'm' :: rest from by
      rw [List.dropWhile_cons, if_neg (by decide)]]
    rw [show List.takeWhile (fun x => !isCsiTerm x) ('m' :: rest) = [] from by
      rw [List.takeWhile_cons, if_neg (by decide)]]
    rw [List.append_nil]
    exact congrArg (fun q => parseLoop rows cols fuel q rest) (applyCsi_sgr_set st s hOk hs)

lemma parseRun_moveChunk (rows cols : Nat) (st : PState) (r c : Nat) (rest : List Char) :
    parseRun rows cols st (moveChunk r c ++ rest)
      = parseRun rows cols { st with row := r, col := c } rest :=
  parseRun_chunk rows cols st _ _ rest
    (by simp [moveChunk, esc_lb_data])
    (fun fuel => parseLoop_moveChunk rows cols fuel st r c rest)

lemma parseRun_sgrChunk (rows cols : Nat) (st : PState) (s : List Char)
    (hOk : sgrOk s) (rest : List Char) :
    parseRun rows cols st (sgrChunk s ++ rest)
      = parseRun rows cols { st with sgr := s } rest :=
  parseRun_chunk rows cols st _ _ rest
    (by by_cases hs : s = [] <;> simp [sgrChunk, hs, reset_data, esc_lb_data])
    (fun fuel => parseLoop_sgrChunk rows cols fuel st s hOk rest)

lemma parseRun_charChunk (rows cols : Nat) (st : PState) (c : Char)
    (hc : c ≠ '\x1b') (rest : List Char) :
    parseRun rows cols st (c :: rest)
      = parseRun rows cols (consumeChar rows cols st c) rest := by
  have h := parseRun_chunk rows cols st (consumeChar rows cols st c) [c] rest
    (by simp)
    (fun fuel => parseLoop_cons_char rows cols fuel st c rest (fun h => hc h.1))
  simpa using h

lemma parseRun_homeChunk (rows cols : Nat) (st : PState) (rest : List Char) :
    parseRun rows cols st ("\x1b[H".data ++ rest)
      = parseRun rows cols { st with row := 0, col := 0 } rest := by
  apply parseRun_chunk rows cols st _ _ rest (by simp [home_data])
  intro fuel
  rw [show "\x1b[H".data ++ rest = '\x1b' :: '[' :: 'H' :: rest from by simp [home_data]]
  rw [parseLoop_cons_esc]
  rw [show List.dropWhile (fun x => !isCsiTerm x) ('H' :: rest) = 'H' :: rest from by
    rw [List.dropWhile_cons, if_neg (by decide)]]
  rw [show List.takeWhile (fun x => !isCsiTerm x) ('H' :: rest) = [] from by
    rw [List.takeWhile_cons, if_neg (by decide)]]
  exact congrArg (fun q => parseLoop rows cols fuel q rest) (by
    unfold applyCsi
    rw [if_neg (by decide), if_pos rfl]
    rw [show List.findIdx? (fun c => c == ';') ([] : List Char) = none from rfl]
    rw [if_pos rfl])

/-! ## Cell-level view of grids -/

lemma getD_eq_getElem {α : Type} (l : List α) (d : α) {i : Nat} (h : i < l.length) :
    l.getD i d = l[i] := by
  rw [List.getD_eq_getElem?_getD, List.getElem?_eq_getElem h]
  rfl

lemma cellGet_blank (rows cols i j : Nat) :
    cellGet (blankGrid rows cols) i j = Cell.blank := by
  unfold cellGet blankGrid
  have houter : (List.replicate rows (List.replicate cols Cell.blank)).getD i []
      = if i < rows then List.replicate cols Cell.blank else [] := by
    rw [List.getD_eq_getElem?_getD, List.getElem?_replicate]
    by_cases hi : i < rows
    · rw [if_pos hi, if_pos hi]
      rfl
    · rw [if_neg hi, if_neg hi]
      rfl
  rw [houter]
  by_cases hi : i < rows
  · rw [if_pos hi]
    rw [List.getD_eq_getElem?_getD, List.getElem?_replicate]
    by_cases hj : j < cols
    · rw [if_pos hj]
      rfl
    · rw [if_neg hj]
      rfl
  · rw [if_neg hi]
    rfl

lemma cellGet_setCell_ne (g : Grid) (r c : Nat) (cell : Cell) (i j : Nat)
    (h : ¬(i = r ∧ j = c)) :
    cellGet (setCell g r c cell) i j = cellGet g i j := by
  unfold cellGet setCell
  by_cases hir : r = i
  · subst hir
    by_cases hr : r < g.length
    · rw [getD_set_self hr]
      have hjc : c ≠ j := fun hc => h ⟨rfl, hc.symm⟩
      rw [getD_set_ne hjc]
    · rw [getD_set_oob (by omega)]
  · rw [getD_set_ne hir]

lemma cellGet_setCell_self {g : Grid} {rows cols : Nat} (hs : GridShape g rows cols)
    {r c : Nat} (hr : r < rows) (hc : c < cols) (cell : Cell) :
    cellGet (setCell g r c cell) r c = cell := by
  unfold cellGet setCell
  have hrl : r < g.length := by rw [hs.1]; exact hr
  rw [getD_set_self hrl]
  have hcl : c < (g.getD r []).length := by rw [hs.2 r hr]; exact hc
  rw [getD_set_self hcl]

lemma cellGet_setCell_cases (g : Grid) (r c : Nat) (cell : Cell) (i j : Nat) :
    cellGet (setCell g r c cell) i j = cell ∨
    cellGet (setCell g r c cell) i j = cellGet g i j := by
  by_cases h : i = r ∧ j = c
  · obtain ⟨rfl, rfl⟩ := h
    unfold cellGet setCell
    by_cases hr : i < g.length
    · rw [getD_set_self hr]
      by_cases hc : j < (g.getD i []).length
      · left
        rw [getD_set_self hc]
      · right
        rw [getD_set_oob (by omega)]
    · right
      rw [getD_set_oob (by omega)]
  · right
    exact cellGet_setCell_ne g r c cell i j h

lemma grid_ext {g1 g2 : Grid} {rows cols : Nat}
    (h1 : GridShape g1 rows cols) (h2 : GridShape g2 rows cols)
    (h : ∀ r c, r < rows → c < cols → cellGet g1 r c = cellGet g2 r c) :
    g1 = g2 := by
  have hl1 := h1.1
  have hl2 := h2.1
  apply List.ext_getElem (by omega)
  intro n hn1 hn2
  have hn : n < rows := by omega
  have hrow1 : g1.getD n [] = g1[n] := getD_eq_getElem _ _ hn1
  have hrow2 : g2.getD n [] = g2[n] := getD_eq_getElem _ _ hn2
  have hlen1 : g1[n].length = cols := by rw [← hrow1]; exact h1.2 n hn
  have hlen2 : g2[n].length = cols := by rw [← hrow2]; exact h2.2 n hn
  apply List.ext_getElem (by omega)
  intro m hm1 hm2
  have hm : m < cols := by omega
  have hc := h n m hn hm
  unfold cellGet at hc
  rw [hrow1, hrow2, getD_eq_getElem _ _ hm1, getD_eq_getElem _ _ hm2] at hc
  exact hc

/-! ## SGR well-formedness of parsed grids -/

lemma sgrOk_nil : sgrOk [] := ⟨by decide, by simp⟩

/-- All cells of a grid carry well-formed SGR strings. -/
def SgrInv (g : Grid) : Prop := ∀ i j, sgrOk (cellGet g i j).sgr

lemma blankGrid_sgrInv (rows cols : Nat) : SgrInv (blankGrid rows cols) := by
  intro i j
  rw [cellGet_blank]
  exact sgrOk_nil

lemma applyCsi_sgr_of_ne (st : PState) (params : List Char) (t : Char) (h : t ≠ 'm') :
    (applyCsi st params t).sgr = st.sgr := by
  unfold applyCsi
  rw [if_neg h]
  by_cases h2 : t = 'H'
  · rw [if_pos h2]
    cases hf : List.findIdx? (fun c => c == ';') params with
    | some semi => rfl
    | none => split_ifs <;> rfl
  · rw [if_neg h2]

lemma applyCsi_sgrOk (st : PState) (params : List Char) (t : Char)
    (hp : ∀ c ∈ params, isCsiTerm c = false) (h : sgrOk st.sgr) :
    sgrOk (applyCsi st params t).sgr := by
  by_cases h1 : t = 'm'
  · subst h1
    unfold applyCsi
    rw [if_pos rfl]
    split_ifs with h2 h3
    · exact sgrOk_nil
    · constructor
      · show (['7'] : List Char) ≠ ['0']
        decide
      · intro c hc
        simp only [List.mem_singleton] at hc
        subst hc
        rfl
    · push_neg at h2
      exact ⟨h2.1, hp⟩
  · rw [applyCsi_sgr_of_ne st params t h1]
    exact h

lemma consumeChar_sgrInv {rows cols : Nat} {st : PState}
    (hg : SgrInv st.grid) (hs : sgrOk st.sgr) (c : Char) :
    SgrInv (consumeChar rows cols st c).grid := by
  unfold consumeChar
  by_cases hb : st.row < rows ∧ st.col < cols
  · rw [if_pos hb]
    intro i j
    rcases cellGet_setCell_cases st.grid st.row st.col ⟨c, st.sgr⟩ i j with h | h
    · rw [h]
      exact hs
    · rw [h]
      exact hg i j
  · rw [if_neg hb]
    exact hg

lemma parseLoop_sgrInv (rows cols : Nat) :
    ∀ (fuel : Nat) (st : PState) (cs : List Char),
      SgrInv st.grid → sgrOk st.sgr →
      SgrInv (parseLoop rows cols fuel st cs).grid ∧
        sgrOk (parseLoop rows cols fuel st cs).sgr := by
  intro fuel
  induction fuel with
  | zero => intro st cs hg hs; exact ⟨hg, hs⟩
  | succ fuel ih =>
      intro st cs hg hs
      cases cs with
      | nil => rw [parseLoop_nil]; exact ⟨hg, hs⟩
      | cons c rest =>
          by_cases hc : c = '\x1b' ∧ rest.head? = some '['
          · obtain ⟨hc1, hc2⟩ := hc
            subst hc1
            cases rest with
            | nil => simp at hc2
            | cons r rs =>
                have hr : r = '[' := by simpa using hc2
                subst hr
                rw [parseLoop_cons_esc]
                cases hdrop : rs.dropWhile (fun c => !isCsiTerm c) with
                | nil => exact ⟨hg, hs⟩
                | cons t rest2 =>
                    apply ih
                    · rw [applyCsi_grid]
                      exact hg
                    · apply applyCsi_sgrOk _ _ _ _ hs
                      intro x hx
                      have := List.mem_takeWhile_imp hx
                      simpa using this
          · rw [parseLoop_cons_char _ _ _ _ _ _ hc]
            apply ih
            · exact consumeChar_sgrInv hg hs c
            · exact hs

lemma parse_frame_sgrInv (frame : List Char) (cols rows : Nat) :
    SgrInv (parse_frame frame cols rows) :=
  (parseLoop_sgrInv rows cols _ _ frame (blankGrid_sgrInv rows cols) sgrOk_nil).1

/-! ## render_delta: state update, self-diff, fallback (claims C2, C3) -/

lemma render_delta_state (st : DeltaRenderer) (f : List Char) (tc tr : Nat) :
    (render_delta st f tc tr).2 = ⟨parse_frame f tc tr, tc, tr, false⟩ := by
  obtain ⟨prev, c0, r0, ff⟩ := st
  unfold render_delta
  by_cases h1 : tc ≠ c0 ∨ tr ≠ r0
  · simp only [if_pos h1, true_or, if_true]
  · simp only [if_neg h1]
    push_neg at h1
    obtain ⟨hc, hr⟩ := h1
    subst hc
    subst hr
    by_cases h2 : ff = true ∨ prev.isEmpty = true
    · simp only [if_pos h2]
    · simp only [if_neg h2]
      have hff : ff = false := by
        cases ff
        · rfl
        · exact absurd (Or.inl rfl) h2
      subst hff
      split_ifs <;> rfl

lemma mem_zip_self {α : Type} : ∀ (l : List α) (p : α × α), p ∈ l.zip l → p.1 = p.2 := by
  intro l
  induction l with
  | nil => intro p hp; simp at hp
  | cons a l ih =>
      intro p hp
      rw [List.zip_cons_cons] at hp
      rcases List.mem_cons.mp hp with h | h
      · subst h; rfl
      · exact ih p h

lemma rowChangedCount_self (r : List Cell) (tc : Nat) : rowChangedCount r r tc = 0 := by
  unfold rowChangedCount
  rw [List.countP_eq_zero]
  intro p hp
  have h := mem_zip_self r p (List.mem_of_mem_take hp)
  simp [h]

lemma changedCount_self (g : Grid) (tc n : Nat) : changedCount g g tc n = 0 := by
  unfold changedCount
  apply List.sum_eq_zero
  intro x hx
  simp only [List.mem_map] at hx
  obtain ⟨p, hp, rfl⟩ := hx
  rw [mem_zip_self g p (List.mem_of_mem_take hp), rowChangedCount_self]

lemma deltaRowScan_self (cur : List Cell) (row cols : Nat) :
    ∀ (fuel : Nat) (col : Nat) (ls : List Char),
      deltaRowScan cur cur row cols fuel false false col ls = ([], ls) := by
  intro fuel
  induction fuel with
  | zero => intro col ls; rfl
  | succ fuel ih =>
      intro col ls
      rw [deltaRowScan]
      by_cases h : col < cols
      · rw [if_pos h, if_pos rfl]
        exact ih (col + 1) ls
      · rw [if_neg h]

lemma deltaRows_self (g : Grid) (tc : Nat) :
    ∀ (n row : Nat) (ls : List Char), deltaRows g g tc n row ls = ([], ls) := by
  intro n
  induction n with
  | zero => intro row ls; rfl
  | succ n ih =>
      intro row ls
      rw [deltaRows]
      simp only [deltaRowScan_self, ih, List.nil_append]

lemma render_delta_patch_path (st : DeltaRenderer) (f : List Char) (tc tr : Nat)
    (hcols : st.term_cols = tc) (hrows : st.term_rows = tr)
    (hff : st.force_full = false) (hprev : st.prev ≠ [])
    (hthr : ¬(0 < tc * tr ∧
      changedCount (parse_frame f tc tr) st.prev tc
          (min tr (min (parse_frame f tc tr).length st.prev.length)) * 100 / (tc * tr) > 70)) :
    (render_delta st f tc tr).1 =
      (deltaRows (parse_frame f tc tr) st.prev tc
          (min tr (min (parse_frame f tc tr).length st.prev.length)) 0 []).1 ++
        (if (deltaRows (parse_frame f tc tr) st.prev tc
            (min tr (min (parse_frame f tc tr).length st.prev.length)) 0 []).2 ≠ []
          then "\x1b[0m".data else []) := by
  have h2 : ¬(st.force_full = true ∨ st.prev.isEmpty = true) := by
    simp only [List.isEmpty_iff, not_or, Bool.not_eq_true]
    exact ⟨hff, hprev⟩
  unfold render_delta
  rw [if_neg (show ¬(tc ≠ st.term_cols ∨ tr ≠ st.term_rows) from by simp [hcols, hrows])]
  simp only [if_neg h2, if_neg hthr]

lemma render_delta_fallback_path (st : DeltaRenderer) (f : List Char) (tc tr : Nat)
    (hcols : st.term_cols = tc) (hrows : st.term_rows = tr)
    (hff : st.force_full = false) (hprev : st.prev ≠ [])
    (hthr : 0 < tc * tr ∧
      changedCount (parse_frame f tc tr) st.prev tc
          (min tr (min (parse_frame f tc tr).length st.prev.length)) * 100 / (tc * tr) > 70) :
    (render_delta st f tc tr).1 = "\x1b[H".data ++ f := by
  have h2 : ¬(st.force_full = true ∨ st.prev.isEmpty = true) := by
    simp only [List.isEmpty_iff, not_or, Bool.not_eq_true]
    exact ⟨hff, hprev⟩
  unfold render_delta
  rw [if_neg (show ¬(tc ≠ st.term_cols ∨ tr ≠ st.term_rows) from by simp [hcols, hrows])]
  simp only [if_neg h2, if_pos hthr]

/-- Claim C2 (amended): in tracking state with unchanged dimensions, when
the code's integer threshold test fires — `total_changed * 100 /
total_cells > 70`, i.e. at least 71 integer percent of the cells differ —
`render_delta` returns the verbatim input frame prefixed only by the
cursor-home escape and stores the current parsed grid as history. -/
theorem render_delta_fallback (st : DeltaRenderer) (full_frame : List Char)
    (term_cols term_rows : Nat)
    (hcols : st.term_cols = term_cols) (hrows : st.term_rows = term_rows)
    (hff : st.force_full = false) (hprev : st.prev ≠ [])
    (hthr : 0 < term_cols * term_rows ∧
      changedCount (parse_frame full_frame term_cols term_rows) st.prev term_cols
          (min term_rows (min (parse_frame full_frame term_cols term_rows).length
            st.prev.length)) * 100 / (term_cols * term_rows) > 70) :
    (render_delta st full_frame term_cols term_rows).1 = "\x1b[H".data ++ full_frame ∧
    (render_delta st full_frame term_cols term_rows).2.prev
      = parse_frame full_frame term_cols term_rows := by
  constructor
  · exact render_delta_fallback_path st full_frame term_cols term_rows
      hcols hrows hff hprev hthr
  · rw [render_delta_state]

/-- Witness for C2 on a 1×1 grid: frame "A" then frame "B" (100% changed). -/
theorem render_delta_fallback_witness :
    (render_delta (render_delta DeltaRenderer.new ['A'] 1 1).2 ['B'] 1 1).1
      = "\x1b[H".data ++ ['B'] ∧
    (render_delta (render_delta DeltaRenderer.new ['A'] 1 1).2 ['B'] 1 1).2.prev
      = parse_frame ['B'] 1 1 :=
  render_delta_fallback (render_delta DeltaRenderer.new ['A'] 1 1).2 ['B'] 1 1
    (by decide) (by decide) (by decide) (by decide) ⟨by decide, by decide⟩

/-- Counterexample to C2 as stated: with 17 cells of which 12 differ, the
differing cells exceed 70% of the total (12/17 ≈ 70.6%), yet
`render_delta` emits a cell-level patch, not the cursor-home-prefixed
full frame, because the integer computation `12 * 100 / 17 = 70` is not
`> 70`. -/
theorem render_delta_fallback_boundary_counterexample :
    100 * changedCount
        (parse_frame (List.replicate 12 'B' ++ List.replicate 5 'A') 17 1)
        ((render_delta DeltaRenderer.new (List.replicate 17 'A') 17 1).2).prev 17
        (min 1 (min (parse_frame (List.replicate 12 'B' ++ List.replicate 5 'A') 17 1).length
          ((render_delta DeltaRenderer.new (List.replicate 17 'A') 17 1).2).prev.length))
      > 70 * (17 * 1) ∧
    ((render_delta DeltaRenderer.new (List.replicate 17 'A') 17 1).2).force_full = false ∧
    ((render_delta DeltaRenderer.new (List.replicate 17 'A') 17 1).2).term_cols = 17 ∧
    ((render_delta DeltaRenderer.new (List.replicate 17 'A') 17 1).2).term_rows = 1 ∧
    (render_delta ((render_delta DeltaRenderer.new (List.replicate 17 'A') 17 1).2)
        (List.replicate 12 'B' ++ List.replicate 5 'A') 17 1).1
      ≠ "\x1b[H".data ++ (List.replicate 12 'B' ++ List.replicate 5 'A') := by
  decide

/-- Claim C3 (amended with `1 ≤ rows`, so that the first call actually
establishes a non-empty history): feeding `render_delta` the same frame
twice in a row yields the empty patch — zero cursor repositions, zero
characters — on the second call. -/
theorem render_delta_idempotent (st : DeltaRenderer) (full_frame : List Char)
    (term_cols term_rows : Nat) (hrows : 1 ≤ term_rows) :
    (render_delta (render_delta st full_frame term_cols term_rows).2
      full_frame term_cols term_rows).1 = [] := by
  rw [render_delta_state st full_frame term_cols term_rows]
  have hne : parse_frame full_frame term_cols term_rows ≠ [] := by
    intro h
    have hlen := (parse_frame_shape full_frame term_cols term_rows).1
    rw [h] at hlen
    simp at hlen
    omega
  rw [render_delta_patch_path _ _ _ _ rfl rfl rfl hne (by
    rw [changedCount_self]
    simp)]
  rw [deltaRows_self]
  simp

/-- Witness for C3: frame "hi" on a 2×1 grid, second call emits nothing. -/
theorem render_delta_idempotent_witness :
    (render_delta (render_delta DeltaRenderer.new "hi".data 2 1).2
      "hi".data 2 1).1 = [] :=
  render_delta_idempotent DeltaRenderer.new "hi".data 2 1 (by decide)

/-- Counterexample to C3 as stated (for every dimensions): at `rows = 0`
the parsed grid is empty, so history is never established; the second
identical call re-emits the cursor-home-prefixed full frame, which
contains the emitted character `X` — not an empty patch. -/
theorem render_delta_idempotent_zero_rows_counterexample :
    (render_delta (render_delta DeltaRenderer.new ['X'] 0 0).2 ['X'] 0 0).1
        = ['\x1b', '[', 'H', 'X'] ∧
    'X' ∈ (render_delta (render_delta DeltaRenderer.new ['X'] 0 0).2 ['X'] 0 0).1 := by
  decide

/-! ## Patch validity (claim C1) -/

lemma runLen_pos (cur prevR : List Cell) (cols fuel col : Nat)
    (hcol : col < cols)
    (heq : cur.getD col Cell.blank = prevR.getD col Cell.blank) :
    1 ≤ runLen cur prevR cols (fuel + 1) col := by
  rw [runLen, if_pos ⟨hcol, heq⟩]
  omega

lemma runLen_spec (cur prevR : List Cell) (cols : Nat) :
    ∀ (fuel col k : Nat), k < runLen cur prevR cols fuel col →
      col + k < cols ∧
        cur.getD (col + k) Cell.blank = prevR.getD (col + k) Cell.blank := by
  intro fuel
  induction fuel with
  | zero =>
      intro col k hk
      rw [runLen] at hk
      omega
  | succ fuel ih =>
      intro col k hk
      rw [runLen] at hk
      by_cases h : col < cols ∧ cur.getD col Cell.blank = prevR.getD col Cell.blank
      · rw [if_pos h] at hk
        cases k with
        | zero =>
            constructor
            · omega
            · simpa using h.2
        | succ k =>
            have hrec := ih (col + 1) k (by omega)
            rw [show col + (k + 1) = col + 1 + k from by omega]
            exact hrec
      · rw [if_neg h] at hk
        omega

lemma deltaRowScan_end (cur prevR : List Cell) (row cols fuel : Nat)
    (inStream placed : Bool) (col : Nat) (ls : List Char) (hcol : ¬col < cols) :
    deltaRowScan cur prevR row cols (fuel + 1) inStream placed col ls = ([], ls) := by
  cases inStream <;> · rw [deltaRowScan, if_neg hcol]

lemma deltaRowScan_outer_skip (cur prevR : List Cell) (row cols fuel : Nat)
    (placed : Bool) (col : Nat) (ls : List Char) (hcol : col < cols)
    (heq : cur.getD col Cell.blank = prevR.getD col Cell.blank) :
    deltaRowScan cur prevR row cols (fuel + 1) false placed col ls
      = deltaRowScan cur prevR row cols fuel false false (col + 1) ls := by
  rw [deltaRowScan, if_pos hcol, if_pos heq]

lemma deltaRowScan_outer_enter (cur prevR : List Cell) (row cols fuel : Nat)
    (placed : Bool) (col : Nat) (ls : List Char) (hcol : col < cols)
    (hne : ¬cur.getD col Cell.blank = prevR.getD col Cell.blank) :
    deltaRowScan cur prevR row cols (fuel + 1) false placed col ls
      = deltaRowScan cur prevR row cols fuel true false col ls := by
  rw [deltaRowScan, if_pos hcol, if_neg hne]

lemma deltaRowScan_inner_skip (cur prevR : List Cell) (row cols fuel : Nat)
    (placed : Bool) (col : Nat) (ls : List Char) (hcol : col < cols)
    (hC : ¬(cur.getD col Cell.blank ≠ prevR.getD col Cell.blank) ∧
      (runLen cur prevR cols (cols - col) col ≥ MIN_SKIP_RUN ∨
        col + runLen cur prevR cols (cols - col) col ≥ cols)) :
    deltaRowScan cur prevR row cols (fuel + 1) true placed col ls
      = deltaRowScan cur prevR row cols fuel false false
          (col + runLen cur prevR cols (cols - col) col) ls := by
  rw [deltaRowScan, if_pos hcol]
  simp only [if_pos hC]

lemma deltaRowScan_inner_stream (cur prevR : List Cell) (row cols fuel : Nat)
    (placed : Bool) (col : Nat) (ls : List Char) (hcol : col < cols)
    (hC : ¬(¬(cur.getD col Cell.blank ≠ prevR.getD col Cell.blank) ∧
      (runLen cur prevR cols (cols - col) col ≥ MIN_SKIP_RUN ∨
        col + runLen cur prevR cols (cols - col) col ≥ cols))) :
    deltaRowScan cur prevR row cols (fuel + 1) true placed col ls
      = ((if placed then [] else moveChunk row col) ++
          (if (cur.getD col Cell.blank).sgr ≠ ls
            then sgrChunk (cur.getD col Cell.blank).sgr else []) ++
          (cur.getD col Cell.blank).ch ::
            (deltaRowScan cur prevR row cols fuel true true (col + 1)
              (if (cur.getD col Cell.blank).sgr ≠ ls
                then (cur.getD col Cell.blank).sgr else ls)).1,
         (deltaRowScan cur prevR row cols fuel true true (col + 1)
           (if (cur.getD col Cell.blank).sgr ≠ ls
             then (cur.getD col Cell.blank).sgr else ls)).2) := by
  rw [deltaRowScan, if_pos hcol]
  simp only [if_neg hC]

lemma consumeChar_in (rows cols : Nat) (g : Grid) (r c : Nat) (s : List Char)
    (ch : Char) (hr : r < rows) (hc : c < cols) :
    consumeChar rows cols ⟨g, r, c, s⟩ ch = ⟨setCell g r c ⟨ch, s⟩, r, c + 1, s⟩ := by
  simp only [consumeChar]
  rw [if_pos ⟨hr, hc⟩]

lemma applyStream_parseRun (rows cols : Nat) (g : Grid) (s : List Char) :
    applyStream rows cols g s = (parseRun rows cols ⟨g, 0, 0, []⟩ s).grid := rfl

lemma applyStream_home (rows cols : Nat) (g : Grid) (f : List Char) :
    applyStream rows cols g ("\x1b[H".data ++ f)
      = (parseRun rows cols ⟨g, 0, 0, []⟩ f).grid := by
  rw [applyStream_parseRun, parseRun_homeChunk]

lemma render_delta_full_path (st : DeltaRenderer) (f : List Char) (tc tr : Nat)
    (h : st.force_full = true ∨ st.prev = []) :
    (render_delta st f tc tr).1 = "\x1b[H".data ++ f := by
  obtain ⟨prev, c0, r0, ff⟩ := st
  unfold render_delta
  by_cases h1 : tc ≠ c0 ∨ tr ≠ r0
  · simp only [if_pos h1, true_or, if_true]
  · simp only [if_neg h1]
    have h2 : ff = true ∨ prev.isEmpty = true := by
      rcases h with h | h
      · exact Or.inl h
      · exact Or.inr (by simp only [List.isEmpty_iff]; exact h)
    simp only [if_pos h2]

lemma deltaRowScan_sound (rows cols : Nat) (cur prevR : List Cell) (row : Nat)
    (hrow : row < rows)
    (hesc : ∀ j, j < cols → (cur.getD j Cell.blank).ch ≠ '\x1b')
    (hsgr : ∀ j, j < cols → sgrOk (cur.getD j Cell.blank).sgr) :
    ∀ (fuel : Nat) (inStream placed : Bool) (col : Nat) (ls : List Char)
      (g : Grid) (prow pcol : Nat),
      2 * (cols - col) + (if inStream then 0 else 1) ≤ fuel →
      GridShape g rows cols →
      (∀ j, col ≤ j → j < cols → cellGet g row j = prevR.getD j Cell.blank) →
      (placed = true → prow = row ∧ pcol = col) →
      ∃ g2 prow2 pcol2,
        (∀ rest, parseRun rows cols ⟨g, prow, pcol, ls⟩
            ((deltaRowScan cur prevR row cols fuel inStream placed col ls).1 ++ rest)
          = parseRun rows cols
              ⟨g2, prow2, pcol2,
                (deltaRowScan cur prevR row cols fuel inStream placed col ls).2⟩ rest) ∧
        GridShape g2 rows cols ∧
        (∀ j, col ≤ j → j < cols → cellGet g2 row j = cur.getD j Cell.blank) ∧
        (∀ i j, i ≠ row ∨ j < col ∨ cols ≤ j → cellGet g2 i j = cellGet g i j) := by
  intro fuel
  induction fuel with
  | zero =>
      intro inStream placed col ls g prow pcol hfuel hshape hprev _hplaced
      cases inStream with
      | false =>
          exfalso
          have : 2 * (cols - col) + 1 ≤ 0 := hfuel
          omega
      | true =>
          have hle : cols ≤ col := by
            have : 2 * (cols - col) + 0 ≤ 0 := hfuel
            omega
          refine ⟨g, prow, pcol, fun rest => rfl, hshape, ?_, fun i j _ => rfl⟩
          intro j hj hjc
          omega
  | succ fuel ih =>
      intro inStream placed col ls g prow pcol hfuel hshape hprev hplaced
      by_cases hcol : col < cols
      · cases inStream with
        | false =>
            have hfuel' : 2 * (cols - col) + 1 ≤ fuel + 1 := hfuel
            by_cases heq : cur.getD col Cell.blank = prevR.getD col Cell.blank
            · rw [deltaRowScan_outer_skip cur prevR row cols fuel placed col ls hcol heq]
              obtain ⟨g2, p2, c2, hpr, hs2, hcur2, helse2⟩ :=
                ih false false (col + 1) ls g prow pcol
                  (by show 2 * (cols - (col + 1)) + 1 ≤ fuel; omega)
                  hshape
                  (fun j hj hjc => hprev j (by omega) hjc)
                  (fun h => absurd h (by decide))
              refine ⟨g2, p2, c2, hpr, hs2, ?_, ?_⟩
              · intro j hj hjc
                by_cases hjcol : j = col
                · subst hjcol
                  rw [helse2 row j (Or.inr (Or.inl (by omega)))]
                  rw [hprev j (by omega) hjc]
                  exact heq.symm
                · exact hcur2 j (by omega) hjc
              · intro i j hij
                apply helse2
                rcases hij with h | h | h
                · exact Or.inl h
                · exact Or.inr (Or.inl (by omega))
                · exact Or.inr (Or.inr h)
            · rw [deltaRowScan_outer_enter cur prevR row cols fuel placed col ls hcol heq]
              exact ih true false col ls g prow pcol
                (by show 2 * (cols - col) + 0 ≤ fuel; omega)
                hshape hprev (fun h => absurd h (by decide))
        | true =>
            have hfuel' : 2 * (cols - col) + 0 ≤ fuel + 1 := hfuel
            by_cases hC : ¬(cur.getD col Cell.blank ≠ prevR.getD col Cell.blank) ∧
                (runLen cur prevR cols (cols - col) col ≥ MIN_SKIP_RUN ∨
                  col + runLen cur prevR cols (cols - col) col ≥ cols)
            · rw [deltaRowScan_inner_skip cur prevR row cols fuel placed col ls hcol hC]
              have heq : cur.getD col Cell.blank = prevR.getD col Cell.blank :=
                not_not.mp hC.1
              have hskl1 : 1 ≤ runLen cur prevR cols (cols - col) col := by
                obtain ⟨k, hk⟩ : ∃ k, cols - col = k + 1 := ⟨cols - col - 1, by omega⟩
                rw [hk]
                exact runLen_pos cur prevR cols k col hcol heq
              have hsklle : col + runLen cur prevR cols (cols - col) col ≤ cols := by
                have h := runLen_spec cur prevR cols (cols - col) col
                  (runLen cur prevR cols (cols - col) col - 1) (by omega)
                omega
              obtain ⟨g2, p2, c2, hpr, hs2, hcur2, helse2⟩ :=
                ih false false (col + runLen cur prevR cols (cols - col) col) ls g prow pcol
                  (by show 2 * (cols - (col + runLen cur prevR cols (cols - col) col)) + 1
                      ≤ fuel; omega)
                  hshape
                  (fun j hj hjc => hprev j (by omega) hjc)
                  (fun h => absurd h (by decide))
              refine ⟨g2, p2, c2, hpr, hs2, ?_, ?_⟩
              · intro j hj hjc
                by_cases hjr : j < col + runLen cur prevR cols (cols - col) col
                · rw [helse2 row j (Or.inr (Or.inl hjr))]
                  have hspec := runLen_spec cur prevR cols (cols - col) col (j - col) (by omega)
                  rw [show col + (j - col) = j from by omega] at hspec
                  rw [hprev j hj hjc]
                  exact hspec.2.symm
                · exact hcur2 j (by omega) hjc
              · intro i j hij
                apply helse2
                rcases hij with h | h | h
                · exact Or.inl h
                · exact Or.inr (Or.inl (by omega))
                · exact Or.inr (Or.inr h)
            · rw [deltaRowScan_inner_stream cur prevR row cols fuel placed col ls hcol hC]
              set ls2 := if (cur.getD col Cell.blank).sgr ≠ ls
                then (cur.getD col Cell.blank).sgr else ls with hls2
              obtain ⟨g2, p2, c2, hpr, hs2, hcur2, helse2⟩ :=
                ih true true (col + 1) ls2
                  (setCell g row col (cur.getD col Cell.blank)) row (col + 1)
                  (by show 2 * (cols - (col + 1)) + 0 ≤ fuel; omega)
                  (setCell_shape hshape row col _)
                  (fun j hj hjc => by
                    rw [cellGet_setCell_ne g row col _ row j (fun hcj => by omega)]
                    exact hprev j (by omega) hjc)
                  (fun _ => ⟨rfl, rfl⟩)
              refine ⟨g2, p2, c2, ?_, hs2, ?_, ?_⟩
              · intro rest
                have hcont : parseRun rows cols ⟨g, row, col, ls⟩
                    ((if (cur.getD col Cell.blank).sgr ≠ ls
                        then sgrChunk (cur.getD col Cell.blank).sgr else []) ++
                      ((cur.getD col Cell.blank).ch ::
                        ((deltaRowScan cur prevR row cols fuel true true (col + 1) ls2).1
                          ++ rest)))
                    = parseRun rows cols
                        ⟨g2, p2, c2,
                          (deltaRowScan cur prevR row cols fuel true true (col + 1) ls2).2⟩
                        rest := by
                  by_cases hsg : (cur.getD col Cell.blank).sgr ≠ ls
                  · rw [if_pos hsg]
                    have h1 : parseRun rows cols ⟨g, row, col, ls⟩
                        (sgrChunk (cur.getD col Cell.blank).sgr ++
                          ((cur.getD col Cell.blank).ch ::
                            ((deltaRowScan cur prevR row cols fuel true true (col + 1) ls2).1
                              ++ rest)))
                        = parseRun rows cols ⟨g, row, col, (cur.getD col Cell.blank).sgr⟩
                            ((cur.getD col Cell.blank).ch ::
                              ((deltaRowScan cur prevR row cols fuel true true (col + 1) ls2).1
                                ++ rest)) :=
                      parseRun_sgrChunk rows cols ⟨g, row, col, ls⟩ _ (hsgr col hcol) _
                    rw [h1]
                    have h2 : parseRun rows cols ⟨g, row, col, (cur.getD col Cell.blank).sgr⟩
                        ((cur.getD col Cell.blank).ch ::
                          ((deltaRowScan cur prevR row cols fuel true true (col + 1) ls2).1
                            ++ rest))
                        = parseRun rows cols
                            (consumeChar rows cols ⟨g, row, col, (cur.getD col Cell.blank).sgr⟩
                              (cur.getD col Cell.blank).ch)
                            ((deltaRowScan cur prevR row cols fuel true true (col + 1) ls2).1
                              ++ rest) :=
                      parseRun_charChunk rows cols _ _ (hesc col hcol) _
                    rw [h2, consumeChar_in rows cols g row col _ _ hrow hcol]
                    have hls2eq : ls2 = (cur.getD col Cell.blank).sgr := by
                      rw [hls2, if_pos hsg]
                    rw [show (⟨(cur.getD col Cell.blank).ch, (cur.getD col Cell.blank).sgr⟩
                        : Cell) = cur.getD col Cell.blank from rfl]
                    rw [← hls2eq]
                    exact hpr rest
                  · rw [if_neg hsg]
                    have hls : (cur.getD col Cell.blank).sgr = ls := not_not.mp hsg
                    rw [List.nil_append]
                    have h2 : parseRun rows cols ⟨g, row, col, ls⟩
                        ((cur.getD col Cell.blank).ch ::
                          ((deltaRowScan cur prevR row cols fuel true true (col + 1) ls2).1
                            ++ rest))
                        = parseRun rows cols
                            (consumeChar rows cols ⟨g, row, col, ls⟩
                              (cur.getD col Cell.blank).ch)
                            ((deltaRowScan cur prevR row cols fuel true true (col + 1) ls2).1
                              ++ rest) :=
                      parseRun_charChunk rows cols _ _ (hesc col hcol) _
                    rw [h2, consumeChar_in rows cols g row col _ _ hrow hcol]
                    have hls2eq : ls2 = ls := by rw [hls2, if_neg hsg]
                    rw [show (⟨(cur.getD col Cell.blank).ch, ls⟩ : Cell)
                        = cur.getD col Cell.blank from by rw [← hls]]
                    rw [← hls2eq]
                    exact hpr rest
                by_cases hp : placed = true
                · obtain ⟨hprw, hpcl⟩ := hplaced hp
                  rw [hprw, hpcl]
                  rw [if_pos hp, List.nil_append]
                  rw [show ((if (cur.getD col Cell.blank).sgr ≠ ls
                      then sgrChunk (cur.getD col Cell.blank).sgr else []) ++
                        (cur.getD col Cell.blank).ch ::
                          (deltaRowScan cur prevR row cols fuel true true (col + 1) ls2).1)
                      ++ rest
                    = (if (cur.getD col Cell.blank).sgr ≠ ls
                        then sgrChunk (cur.getD col Cell.blank).sgr else []) ++
                        ((cur.getD col Cell.blank).ch ::
                          ((deltaRowScan cur prevR row cols fuel true true (col + 1) ls2).1
                            ++ rest)) from by simp]
                  exact hcont
                · rw [if_neg hp]
                  rw [show ((moveChunk row col ++
                      (if (cur.getD col Cell.blank).sgr ≠ ls
                        then sgrChunk (cur.getD col Cell.blank).sgr else []) ++
                        (cur.getD col Cell.blank).ch ::
                          (deltaRowScan cur prevR row cols fuel true true (col + 1) ls2).1)
                      ++ rest)
                    = moveChunk row col ++
                        ((if (cur.getD col Cell.blank).sgr ≠ ls
                          then sgrChunk (cur.getD col Cell.blank).sgr else []) ++
                          ((cur.getD col Cell.blank).ch ::
                            ((deltaRowScan cur prevR row cols fuel true true (col + 1) ls2).1
                              ++ rest))) from by simp]
                  have hmv : parseRun rows cols ⟨g, prow, pcol, ls⟩
                      (moveChunk row col ++
                        ((if (cur.getD col Cell.blank).sgr ≠ ls
                          then sgrChunk (cur.getD col Cell.blank).sgr else []) ++
                          ((cur.getD col Cell.blank).ch ::
                            ((deltaRowScan cur prevR row cols fuel true true (col + 1) ls2).1
                              ++ rest))))
                      = parseRun rows cols ⟨g, row, col, ls⟩
                          ((if (cur.getD col Cell.blank).sgr ≠ ls
                            then sgrChunk (cur.getD col Cell.blank).sgr else []) ++
                            ((cur.getD col Cell.blank).ch ::
                              ((deltaRowScan cur prevR row cols fuel true true (col + 1) ls2).1
                                ++ rest))) :=
                    parseRun_moveChunk rows cols ⟨g, prow, pcol, ls⟩ row col _
                  rw [hmv]
                  exact hcont
              · intro j hj hjc
                by_cases hjcol : j = col
                · subst hjcol
                  rw [helse2 row j (Or.inr (Or.inl (by omega)))]
                  exact cellGet_setCell_self hshape hrow hcol _
                · exact hcur2 j (by omega) hjc
              · intro i j hij
                have h1 : cellGet g2 i j
                    = cellGet (setCell g row col (cur.getD col Cell.blank)) i j := by
                  apply helse2
                  rcases hij with h | h | h
                  · exact Or.inl h
                  · exact Or.inr (Or.inl (by omega))
                  · exact Or.inr (Or.inr h)
                rw [h1]
                apply cellGet_setCell_ne
                rintro ⟨rfl, rfl⟩
                rcases hij with h | h | h
                · exact h rfl
                · omega
                · omega
      · rw [deltaRowScan_end cur prevR row cols fuel inStream placed col ls hcol]
        refine ⟨g, prow, pcol, fun rest => rfl, hshape, ?_, fun i j _ => rfl⟩
        intro j hj hjc
        omega

lemma deltaRows_succ (current prev : Grid) (tc n row : Nat) (ls : List Char) :
    deltaRows current prev tc (n + 1) row ls
      = ((deltaRowScan (current.getD row []) (prev.getD row []) row
            (min tc (min (current.getD row []).length (prev.getD row []).length))
            (2 * min tc (min (current.getD row []).length (prev.getD row []).length) + 1)
            false false 0 ls).1 ++
          (deltaRows current prev tc n (row + 1)
            (deltaRowScan (current.getD row []) (prev.getD row []) row
              (min tc (min (current.getD row []).length (prev.getD row []).length))
              (2 * min tc (min (current.getD row []).length (prev.getD row []).length) + 1)
              false false 0 ls).2).1,
         (deltaRows current prev tc n (row + 1)
           (deltaRowScan (current.getD row []) (prev.getD row []) row
             (min tc (min (current.getD row []).length (prev.getD row []).length))
             (2 * min tc (min (current.getD row []).length (prev.getD row []).length) + 1)
             false false 0 ls).2).2) := by
  rw [deltaRows]

lemma deltaRows_sound (rows cols : Nat) (current prev : Grid)
    (hcs : GridShape current rows cols) (hps : GridShape prev rows cols)
    (hesc : ∀ i, i < rows → ∀ j, j < cols → (cellGet current i j).ch ≠ '\x1b')
    (hsgr : ∀ i j, sgrOk (cellGet current i j).sgr) :
    ∀ (n row : Nat), row + n = rows →
      ∀ (ls : List Char) (g : Grid) (prow pcol : Nat),
        GridShape g rows cols →
        (∀ i, row ≤ i → i < rows → ∀ j, j < cols → cellGet g i j = cellGet prev i j) →
        ∃ g2 prow2 pcol2,
          (∀ rest, parseRun rows cols ⟨g, prow, pcol, ls⟩
              ((deltaRows current prev cols n row ls).1 ++ rest)
            = parseRun rows cols
                ⟨g2, prow2, pcol2, (deltaRows current prev cols n row ls).2⟩ rest) ∧
          GridShape g2 rows cols ∧
          (∀ i, row ≤ i → i < rows → ∀ j, j < cols → cellGet g2 i j = cellGet current i j) ∧
          (∀ i j, i < row → cellGet g2 i j = cellGet g i j) := by
  intro n
  induction n with
  | zero =>
      intro row hle ls g prow pcol hshape hprev
      refine ⟨g, prow, pcol, fun rest => rfl, hshape, ?_, fun i j _ => rfl⟩
      intro i h1 h2
      omega
  | succ n ih =>
      intro row hle ls g prow pcol hshape hprev
      have hrow : row < rows := by omega
      rw [deltaRows_succ]
      have hctc : min cols (min (current.getD row []).length (prev.getD row []).length)
          = cols := by
        rw [hcs.2 row hrow, hps.2 row hrow]
        simp
      rw [hctc]
      obtain ⟨g1, p1, c1, hpr1, hs1, hcur1, helse1⟩ :=
        deltaRowScan_sound rows cols (current.getD row []) (prev.getD row []) row hrow
          (fun j hj => hesc row hrow j hj)
          (fun j _ => hsgr row j)
          (2 * cols + 1) false false 0 ls g prow pcol
          (by show 2 * (cols - 0) + 1 ≤ 2 * cols + 1; omega)
          hshape
          (fun j _ hj => hprev row (le_refl row) hrow j hj)
          (fun h => absurd h (by decide))
      obtain ⟨g2, p2, c2, hpr2, hs2, hcur2, helse2⟩ :=
        ih (row + 1) (by omega)
          (deltaRowScan (current.getD row []) (prev.getD row []) row cols
            (2 * cols + 1) false false 0 ls).2
          g1 p1 c1 hs1
          (fun i hge hlt j hj => by
            rw [helse1 i j (Or.inl (by omega))]
            exact hprev i (by omega) hlt j hj)
      refine ⟨g2, p2, c2, ?_, hs2, ?_, ?_⟩
      · intro rest
        rw [show ((deltaRowScan (current.getD row []) (prev.getD row []) row cols
              (2 * cols + 1) false false 0 ls).1 ++
                (deltaRows current prev cols n (row + 1)
                  (deltaRowScan (current.getD row []) (prev.getD row []) row cols
                    (2 * cols + 1) false false 0 ls).2).1) ++ rest
            = (deltaRowScan (current.getD row []) (prev.getD row []) row cols
                (2 * cols + 1) false false 0 ls).1 ++
                ((deltaRows current prev cols n (row + 1)
                  (deltaRowScan (current.getD row []) (prev.getD row []) row cols
                    (2 * cols + 1) false false 0 ls).2).1 ++ rest)
            from by simp]
        rw [hpr1]
        exact hpr2 rest
      · intro i hge hlt j hj
        by_cases hi : i = row
        · rw [hi]
          rw [helse2 row j (by omega)]
          exact hcur1 j (by omega) hj
        · exact hcur2 i (by omega) hlt j hj
      · intro i j hlt
        rw [helse2 i j (by omega)]
        exact helse1 i j (Or.inl (by omega))

/-- Claim C1 (corrected): applying the full-frame output for F1 and then the
delta output for F2 to a virtual grid (with `parse_frame`'s semantics)
reproduces exactly the grid of the full-frame output for F2 alone, provided
the second call takes the cell-level patch path (the changed-cell integer
percentage does not exceed 70) and no parsed cell of F2 holds a raw ESC
character (such a cell would be re-emitted adjacent to the patch's own
escapes and re-parse differently). -/
theorem delta_patch_validity (F1 F2 : List Char) (cols rows : Nat)
    (hesc : ∀ i, i < rows → ∀ j, j < cols →
      (cellGet (parse_frame F2 cols rows) i j).ch ≠ '\x1b')
    (hfb : ¬(0 < cols * rows ∧
      changedCount (parse_frame F2 cols rows) (parse_frame F1 cols rows) cols rows * 100
        / (cols * rows) > 70)) :
    applyStream rows cols
        (applyStream rows cols (blankGrid rows cols)
          (render_delta DeltaRenderer.new F1 cols rows).1)
        (render_delta (render_delta DeltaRenderer.new F1 cols rows).2 F2 cols rows).1
      = applyStream rows cols (blankGrid rows cols) ("\x1b[H".data ++ F2) := by
  have hout1 : (render_delta DeltaRenderer.new F1 cols rows).1 = "\x1b[H".data ++ F1 :=
    render_delta_full_path _ _ _ _ (Or.inl rfl)
  have hstate : (render_delta DeltaRenderer.new F1 cols rows).2
      = ⟨parse_frame F1 cols rows, cols, rows, false⟩ := render_delta_state _ _ _ _
  rw [hout1, hstate, applyStream_home]
  rw [show (parseRun rows cols ⟨blankGrid rows cols, 0, 0, []⟩ F1).grid
      = parse_frame F1 cols rows from rfl]
  rw [applyStream_home]
  rw [show (parseRun rows cols ⟨blankGrid rows cols, 0, 0, []⟩ F2).grid
      = parse_frame F2 cols rows from rfl]
  by_cases hrows : rows = 0
  · subst hrows
    have h1 : parse_frame F1 cols 0 = [] :=
      List.length_eq_zero.mp (parse_frame_shape F1 cols 0).1
    have hout2 : (render_delta (⟨parse_frame F1 cols 0, cols, 0, false⟩ : DeltaRenderer)
        F2 cols 0).1 = "\x1b[H".data ++ F2 :=
      render_delta_full_path _ _ _ _ (Or.inr h1)
    rw [hout2, applyStream_home, h1]
    rfl
  · have hP1s := parse_frame_shape F1 cols rows
    have hP2s := parse_frame_shape F2 cols rows
    have hprevne : parse_frame F1 cols rows ≠ [] := by
      intro h
      rw [h] at hP1s
      have := hP1s.1
      simp at this
      omega
    have hmin : min rows (min (parse_frame F2 cols rows).length
        (parse_frame F1 cols rows).length) = rows := by
      rw [hP2s.1, hP1s.1]
      simp
    have hout2 := render_delta_patch_path
      (⟨parse_frame F1 cols rows, cols, rows, false⟩ : DeltaRenderer) F2 cols rows
      rfl rfl rfl hprevne (by dsimp only; rw [hmin]; exact hfb)
    dsimp only at hout2
    rw [hmin] at hout2
    rw [hout2, applyStream_parseRun]
    obtain ⟨g2, p2, c2, hpr, hs2, hcur2, _⟩ :=
      deltaRows_sound rows cols (parse_frame F2 cols rows) (parse_frame F1 cols rows)
        hP2s hP1s hesc (parse_frame_sgrInv F2 cols rows)
        rows 0 (by omega) [] (parse_frame F1 cols rows) 0 0 hP1s
        (fun i _ _ j _ => rfl)
    rw [hpr]
    by_cases hls : (deltaRows (parse_frame F2 cols rows) (parse_frame F1 cols rows)
        cols rows 0 []).2 ≠ []
    · rw [if_pos hls]
      rw [show (['\x1b', '[', '0', 'm'] : List Char) = sgrChunk [] ++ [] from by decide]
      rw [parseRun_sgrChunk rows cols _ [] sgrOk_nil []]
      exact grid_ext hs2 hP2s (fun r c hr hc => hcur2 r (by omega) hr c hc)
    · rw [if_neg hls]
      exact grid_ext hs2 hP2s (fun r c hr hc => hcur2 r (by omega) hr c hc)

/-- Counterexample to C1 as stated (for any two frames): with F1 = "AB",
F2 = "C" on a 1×2 grid, every cell differs, so the second call returns the
cursor-home-prefixed full frame; replaying that on the virtual grid leaves
the stale cell `B` from F1, while the full-frame grid of F2 has a blank
there. -/
theorem delta_patch_validity_fallback_counterexample :
    applyStream 1 2
        (applyStream 1 2 (blankGrid 1 2)
          (render_delta DeltaRenderer.new "AB".data 2 1).1)
        (render_delta (render_delta DeltaRenderer.new "AB".data 2 1).2 "C".data 2 1).1
      ≠ applyStream 1 2 (blankGrid 1 2) ("\x1b[H".data ++ "C".data) := by
  decide

/-- Witness for C1 on a 1×2 grid: F1 = "AB", F2 = "CB" (one changed cell of
two, below the threshold, no ESC cells), where the patch replay equals the
full-frame grid. -/
theorem delta_patch_validity_witness :
    applyStream 1 2
        (applyStream 1 2 (blankGrid 1 2)
          (render_delta DeltaRenderer.new "AB".data 2 1).1)
        (render_delta (render_delta DeltaRenderer.new "AB".data 2 1).2 "CB".data 2 1).1
      = applyStream 1 2 (blankGrid 1 2) ("\x1b[H".data ++ "CB".data) :=
  delta_patch_validity "AB".data "CB".data 2 1 (by decide) (by decide)

/-! ## Braille per-cell encoding (claim C4) -/

/-! ## Row termination and newline-freedom of the encoders (claim C6) -/

lemma natToChars_no_newline (n : Nat) : ∀ c ∈ natToChars n, c ≠ '\n' := by
  intro c hc
  obtain ⟨d, hd, rfl⟩ := natToChars_digits n c hc
  exact (digitChar_props hd).2.2.2.2.1

lemma no_newline_append {l1 l2 : List Char} (h1 : ∀ c ∈ l1, c ≠ '\n')
    (h2 : ∀ c ∈ l2, c ≠ '\n') : ∀ c ∈ l1 ++ l2, c ≠ '\n' := by
  intro c hc
  rcases List.mem_append.mp hc with h | h
  · exact h1 c h
  · exact h2 c h

lemma color_to_fg_no_newline (c : Color) : ∀ ch ∈ color_to_fg c, ch ≠ '\n' := by
  intro ch hch
  cases c with
  | Rgb r g b =>
      simp only [color_to_fg] at hch
      exact no_newline_append (no_newline_append (no_newline_append (no_newline_append
        (no_newline_append (by decide) (natToChars_no_newline r)) (by decide))
        (natToChars_no_newline g)) (by decide)) (natToChars_no_newline b) ch hch
  | AnsiValue v =>
      simp only [color_to_fg] at hch
      rcases List.mem_append.mp hch with h | h
      · exact (by decide : ∀ x ∈ "38;5;".data, x ≠ '\n') ch h
      · exact natToChars_no_newline _ ch h
  | Black => exact (by decide : ∀ x ∈ "30".data, x ≠ '\n') ch hch
  | DarkRed => exact (by decide : ∀ x ∈ "31".data, x ≠ '\n') ch hch
  | DarkGreen => exact (by decide : ∀ x ∈ "32".data, x ≠ '\n') ch hch
  | DarkYellow => exact (by decide : ∀ x ∈ "33".data, x ≠ '\n') ch hch
  | DarkBlue => exact (by decide : ∀ x ∈ "34".data, x ≠ '\n') ch hch
  | DarkMagenta => exact (by decide : ∀ x ∈ "35".data, x ≠ '\n') ch hch
  | DarkCyan => exact (by decide : ∀ x ∈ "36".data, x ≠ '\n') ch hch
  | Grey => exact (by decide : ∀ x ∈ "37".data, x ≠ '\n') ch hch
  | DarkGrey => exact (by decide : ∀ x ∈ "90".data, x ≠ '\n') ch hch
  | Red => exact (by decide : ∀ x ∈ "91".data, x ≠ '\n') ch hch
  | Green => exact (by decide : ∀ x ∈ "92".data, x ≠ '\n') ch hch
  | Yellow => exact (by decide : ∀ x ∈ "93".data, x ≠ '\n') ch hch
  | Blue => exact (by decide : ∀ x ∈ "94".data, x ≠ '\n') ch hch
  | Magenta => exact (by decide : ∀ x ∈ "95".data, x ≠ '\n') ch hch
  | Cyan => exact (by decide : ∀ x ∈ "96".data, x ≠ '\n') ch hch
  | White => exact (by decide : ∀ x ∈ "97".data, x ≠ '\n') ch hch

lemma color_to_bg_no_newline (c : Color) : ∀ ch ∈ color_to_bg c, ch ≠ '\n' := by
  intro ch hch
  cases c with
  | Rgb r g b =>
      simp only [color_to_bg] at hch
      exact no_newline_append (no_newline_append (no_newline_append (no_newline_append
        (no_newline_append (by decide) (natToChars_no_newline r)) (by decide))
        (natToChars_no_newline g)) (by decide)) (natToChars_no_newline b) ch hch
  | AnsiValue v =>
      simp only [color_to_bg] at hch
      rcases List.mem_append.mp hch with h | h
      · exact (by decide : ∀ x ∈ "48;5;".data, x ≠ '\n') ch h
      · exact natToChars_no_newline _ ch h
  | Black => exact (by decide : ∀ x ∈ "40".data, x ≠ '\n') ch hch
  | DarkRed => exact (by decide : ∀ x ∈ "41".data, x ≠ '\n') ch hch
  | DarkGreen => exact (by decide : ∀ x ∈ "42".data, x ≠ '\n') ch hch
  | DarkYellow => exact (by decide : ∀ x ∈ "43".data, x ≠ '\n') ch hch
  | DarkBlue => exact (by decide : ∀ x ∈ "44".data, x ≠ '\n') ch hch
  | DarkMagenta => exact (by decide : ∀ x ∈ "45".data, x ≠ '\n') ch hch
  | DarkCyan => exact (by decide : ∀ x ∈ "46".data, x ≠ '\n') ch hch
  | Grey => exact (by decide : ∀ x ∈ "47".data, x ≠ '\n') ch hch
  | DarkGrey => exact (by decide : ∀ x ∈ "100".data, x ≠ '\n') ch hch
  | Red => exact (by decide : ∀ x ∈ "101".data, x ≠ '\n') ch hch
  | Green => exact (by decide : ∀ x ∈ "102".data, x ≠ '\n') ch hch
  | Yellow => exact (by decide : ∀ x ∈ "103".data, x ≠ '\n') ch hch
  | Blue => exact (by decide : ∀ x ∈ "104".data, x ≠ '\n') ch hch
  | Magenta => exact (by decide : ∀ x ∈ "105".data, x ≠ '\n') ch hch
  | Cyan => exact (by decide : ∀ x ∈ "106".data, x ≠ '\n') ch hch
  | White => exact (by decide : ∀ x ∈ "107".data, x ≠ '\n') ch hch

lemma char_toNat_ofNat_valid (n : Nat) (h : n.isValidChar) :
    (Char.ofNat n).toNat = n := by
  rw [Char.ofNat, dif_pos h]
  rfl

lemma braille_char_no_newline {bits : Nat} (h : bits < 256) :
    Char.ofNat (0x2800 + bits) ≠ '\n' := by
  intro hEq
  have hvalid : (0x2800 + bits).isValidChar := Or.inl (by omega)
  have hval := char_toNat_ofNat_valid _ hvalid
  rw [hEq] at hval
  have hn : ('\n').toNat = 10 := rfl
  omega

lemma brailleDotStep_bits_lt (cv : Canvas) (px py : Nat) :
    ∀ (l : List (Nat × Nat × Nat)) (acc : BrailleAcc), (∀ d ∈ l, d.2.2 < 256) →
      acc.bits < 256 → (l.foldl (brailleDotStep cv px py) acc).bits < 256 := by
  intro l
  induction l with
  | nil => intro acc _ h; exact h
  | cons d l ih =>
      intro acc hd hacc
      rw [List.foldl_cons]
      apply ih _ (fun x hx => hd x (by simp [hx]))
      obtain ⟨dx, dy, bit⟩ := d
      have hbit : bit < 256 := hd (dx, dy, bit) (by simp)
      simp only [brailleDotStep]
      have hp : (2 : Nat) ^ 8 = 256 := by norm_num
      split_ifs with h1 h2
      · show acc.bits ||| bit < 256
        have hx : acc.bits < 2 ^ 8 := by omega
        have hy : bit < 2 ^ 8 := by omega
        have hor := Nat.or_lt_two_pow hx hy
        omega
      · exact hacc
      · exact hacc

lemma brailleCell_bits_lt (cv : Canvas) (row col : Nat) :
    (brailleCell cv row col).bits < 256 := by
  unfold brailleCell
  apply brailleDotStep_bits_lt
  · decide
  · decide

lemma getD_mem_or_default {α : Type} (l : List α) (i : Nat) (d : α) :
    l.getD i d ∈ l ∨ l.getD i d = d := by
  by_cases h : i < l.length
  · left
    rw [getD_eq_getElem l d h]
    exact List.getElem_mem h
  · right
    exact List.getD_eq_default l d (by omega)

lemma brailleEmit_no_newline (cv : Canvas) (row col : Nat) (last_fg : List Char) :
    ∀ c ∈ (brailleEmit cv row col last_fg).1, c ≠ '\n' := by
  intro c hc
  have hch : Char.ofNat (0x2800 + (brailleCell cv row col).bits) ≠ '\n' :=
    braille_char_no_newline (brailleCell_bits_lt cv row col)
  unfold brailleEmit at hc
  by_cases h1 : cv.color_mode ≠ ColorMode.Mono ∧ (brailleCell cv row col).lit_count > 0
  · rw [if_pos h1] at hc
    by_cases h2 : color_to_fg (cv.map_color
        ((brailleCell cv row col).total_r / (brailleCell cv row col).lit_count)
        ((brailleCell cv row col).total_g / (brailleCell cv row col).lit_count)
        ((brailleCell cv row col).total_b / (brailleCell cv row col).lit_count)) ≠ last_fg
    · rw [if_pos h2] at hc
      dsimp only at hc
      rcases List.mem_append.mp hc with h | hc
      rcases List.mem_append.mp h with h | h
      rcases List.mem_append.mp h with h | h
      · exact (by decide : ∀ x ∈ "\x1b[".data, x ≠ '\n') c h
      · exact color_to_fg_no_newline _ c h
      · exact (by decide : ∀ x ∈ "m".data, x ≠ '\n') c h
      · rw [List.mem_singleton] at hc
        subst hc
        exact hch
    · rw [if_neg h2] at hc
      dsimp only at hc
      rw [List.mem_singleton] at hc
      subst hc
      exact hch
  · rw [if_neg h1] at hc
    by_cases h3 : last_fg ≠ []
    · rw [if_pos h3] at hc
      dsimp only at hc
      rcases List.mem_append.mp hc with h | hc
      · exact (by decide : ∀ x ∈ "\x1b[0m".data, x ≠ '\n') c h
      · rw [List.mem_singleton] at hc
        subst hc
        exact hch
    · rw [if_neg h3] at hc
      dsimp only at hc
      rw [List.mem_singleton] at hc
      subst hc
      exact hch

lemma asciiEmit_no_newline (cv : Canvas) (row col : Nat) (last_fg : List Char)
    (hover : ∀ ch ∈ cv.char_override, ch ≠ '\n') :
    ∀ c ∈ (asciiEmit cv row col last_fg).1, c ≠ '\n' := by
  intro c hc
  have hch : ∀ i (v : Rat), (if cv.char_override.getD i '\x00' ≠ '\x00' then
        cv.char_override.getD i '\x00'
      else ASCII_CHARS.getD ((v * 9).floor.toNat) ' ') ≠ '\n' := by
    intro i v
    split_ifs with h
    · rcases getD_mem_or_default cv.char_override i '\x00' with hm | hm
      · exact hover _ hm
      · rw [hm]
        decide
    · by_cases hi : (v * 9).floor.toNat < ASCII_CHARS.length
      · rw [getD_eq_getElem ASCII_CHARS ' ' hi]
        have hall : ∀ x ∈ ASCII_CHARS, x ≠ '\n' := by decide
        exact hall _ (List.getElem_mem hi)
      · rw [List.getD_eq_default _ _ (by omega)]
        decide
  unfold asciiEmit at hc
  by_cases h1 : cv.color_mode ≠ ColorMode.Mono
  · rw [if_pos h1] at hc
    by_cases h2 : color_to_fg (cv.map_color
        (cv.colors.getD (row * cv.width + col) (255, 255, 255)).1
        (cv.colors.getD (row * cv.width + col) (255, 255, 255)).2.1
        (cv.colors.getD (row * cv.width + col) (255, 255, 255)).2.2) ≠ last_fg
    · rw [if_pos h2] at hc
      dsimp only at hc
      rcases List.mem_append.mp hc with h | hc
      rcases List.mem_append.mp h with h | h
      rcases List.mem_append.mp h with h | h
      · exact (by decide : ∀ x ∈ "\x1b[".data, x ≠ '\n') c h
      · exact color_to_fg_no_newline _ c h
      · exact (by decide : ∀ x ∈ "m".data, x ≠ '\n') c h
      · rw [List.mem_singleton] at hc
        subst hc
        exact hch _ _
    · rw [if_neg h2] at hc
      dsimp only at hc
      rw [List.mem_singleton] at hc
      subst hc
      exact hch _ _
  · rw [if_neg h1] at hc
    dsimp only at hc
    rw [List.mem_singleton] at hc
    subst hc
    exact hch _ _

lemma hbEmit_no_newline (cv : Canvas) (row col : Nat)
    (st : List Char × List Char × Bool) :
    ∀ c ∈ (hbEmit cv row col st).1, c ≠ '\n' := by
  intro c hc
  unfold hbEmit at hc
  by_cases h1 : cv.color_mode = ColorMode.Mono
  · rw [if_pos h1] at hc
    dsimp only at hc
    split_ifs at hc <;>
    · rw [List.mem_singleton] at hc
      subst hc
      decide
  · rw [if_neg h1] at hc
    by_cases h2 : cv.pixels.getD ((row * 2) * cv.width + col) 0 < DARK_THRESHOLD ∧
        cv.pixels.getD ((row * 2 + 1) * cv.width + col) 0 < DARK_THRESHOLD
    · rw [if_pos h2] at hc
      by_cases h3 : st.2.2 = true
      · rw [if_pos h3] at hc
        dsimp only at hc
        have hall : ∀ x ∈ "\x1b[0m ".data, x ≠ '\n' := by decide
        exact hall c hc
      · rw [if_neg h3] at hc
        dsimp only at hc
        rw [List.mem_singleton] at hc
        subst hc
        decide
    · rw [if_neg h2] at hc
      dsimp only at hc
      rcases List.mem_append.mp hc with h | hc
      · -- the escape prefix, one of four shapes
        split_ifs at h
        · rcases List.mem_append.mp h with h | h
          rcases List.mem_append.mp h with h | h
          rcases List.mem_append.mp h with h | h
          rcases List.mem_append.mp h with h | h
          · exact (by decide : ∀ x ∈ "\x1b[".data, x ≠ '\n') c h
          · exact color_to_fg_no_newline _ c h
          · exact (by decide : ∀ x ∈ ";".data, x ≠ '\n') c h
          · exact color_to_bg_no_newline _ c h
          · exact (by decide : ∀ x ∈ "m".data, x ≠ '\n') c h
        · rcases List.mem_append.mp h with h | h
          rcases List.mem_append.mp h with h | h
          · exact (by decide : ∀ x ∈ "\x1b[".data, x ≠ '\n') c h
          · exact color_to_fg_no_newline _ c h
          · exact (by decide : ∀ x ∈ "m".data, x ≠ '\n') c h
        · rcases List.mem_append.mp h with h | h
          rcases List.mem_append.mp h with h | h
          · exact (by decide : ∀ x ∈ "\x1b[".data, x ≠ '\n') c h
          · exact color_to_bg_no_newline _ c h
          · exact (by decide : ∀ x ∈ "m".data, x ≠ '\n') c h
        · simp at h
      · rw [List.mem_singleton] at hc
        subst hc
        decide

lemma foldl_append_mem {σ : Type} (step : (List Char × σ) → Nat → (List Char × σ))
    (P : Char → Prop)
    (hstep : ∀ st n, (∀ c ∈ st.1, P c) → ∀ c ∈ (step st n).1, P c) :
    ∀ (l : List Nat) (acc : List Char × σ), (∀ c ∈ acc.1, P c) →
      ∀ c ∈ (l.foldl step acc).1, P c := by
  intro l
  induction l with
  | nil => intro acc h c hc; exact h c hc
  | cons a l ih =>
      intro acc h c hc
      exact ih (step acc a) (hstep acc a h) c hc

lemma brailleRow_no_newline (cv : Canvas) (tc row : Nat) :
    ∀ c ∈ brailleRow cv tc row, c ≠ '\n' := by
  intro c hc
  unfold brailleRow at hc
  dsimp only at hc
  rcases List.mem_append.mp hc with h | hc
  rcases List.mem_append.mp h with h | h
  rcases List.mem_append.mp h with h | h
  · refine foldl_append_mem (brailleRowStep cv row) (fun c => c ≠ '\n') ?_
      (List.range tc) ([], []) (by simp) c h
    intro st n hst c hc
    unfold brailleRowStep at hc
    dsimp only at hc
    rcases List.mem_append.mp hc with h | h
    · exact hst c h
    · exact brailleEmit_no_newline cv row n st.2 c h
  · exact (by decide : ∀ x ∈ "\x1b[0m\x1b[".data, x ≠ '\n') c h
  · exact natToChars_no_newline _ c h
  · exact (by decide : ∀ x ∈ ";1H".data, x ≠ '\n') c hc

lemma asciiRow_no_newline (cv : Canvas) (cols row : Nat)
    (hover : ∀ ch ∈ cv.char_override, ch ≠ '\n') :
    ∀ c ∈ asciiRow cv cols row, c ≠ '\n' := by
  intro c hc
  unfold asciiRow at hc
  dsimp only at hc
  rcases List.mem_append.mp hc with h | hc
  rcases List.mem_append.mp h with h | h
  rcases List.mem_append.mp h with h | h
  · refine foldl_append_mem (asciiRowStep cv row) (fun c => c ≠ '\n') ?_
      (List.range cols) ([], []) (by simp) c h
    intro st n hst c hc
    unfold asciiRowStep at hc
    dsimp only at hc
    rcases List.mem_append.mp hc with h | h
    · exact hst c h
    · exact asciiEmit_no_newline cv row n st.2 hover c h
  · exact (by decide : ∀ x ∈ "\x1b[0m\x1b[".data, x ≠ '\n') c h
  · exact natToChars_no_newline _ c h
  · exact (by decide : ∀ x ∈ ";1H".data, x ≠ '\n') c hc

lemma hbRow_no_newline (cv : Canvas) (tc row : Nat) :
    ∀ c ∈ hbRow cv tc row, c ≠ '\n' := by
  intro c hc
  unfold hbRow at hc
  dsimp only at hc
  rcases List.mem_append.mp hc with h | hc
  rcases List.mem_append.mp h with h | h
  rcases List.mem_append.mp h with h | h
  rcases List.mem_append.mp h with h | h
  · refine foldl_append_mem (hbRowStep cv row) (fun c => c ≠ '\n') ?_
      (List.range tc) ([], ([], [], false)) (by simp) c h
    intro st n hst c hc
    unfold hbRowStep at hc
    dsimp only at hc
    rcases List.mem_append.mp hc with h | h
    · exact hst c h
    · exact hbEmit_no_newline cv row n st.2 c h
  · split_ifs at h
    · exact (by decide : ∀ x ∈ "\x1b[0m".data, x ≠ '\n') c h
    · simp at h
  · exact (by decide : ∀ x ∈ "\x1b[".data, x ≠ '\n') c h
  · exact natToChars_no_newline _ c h
  · exact (by decide : ∀ x ∈ ";1H".data, x ≠ '\n') c hc


set_option maxHeartbeats 2000000 in
/-- Claim C4: for every canvas and in-range terminal cell, the braille
cell's bitmask is the sum, over the 8 fixed dot positions of `DOT_MAP`, of
the dot's bit exactly when that sub-pixel's brightness strictly exceeds
0.3 (the emitted glyph being `Char.ofNat (0x2800 + bits)` in
`brailleEmit`); the accumulated color totals are the sums of the lit
sub-pixels' RGB channels and `lit_count` their number (the emitted color
being the componentwise integer mean `total / lit_count`); in particular
all 8 sub-pixels above 0.3 yield the glyph U+28FF and none above it the
blank U+2800. -/
theorem braille_cell_encoding (cv : Canvas) (row col : Nat)
    (hcol : col < cv.width / 2) (hrow : row < cv.height / 4) :
    (brailleCell cv row col).bits
        = (DOT_MAP.map (fun d => if dotPix cv row col d > THRESHOLD then d.2.2 else 0)).sum ∧
    (brailleCell cv row col).lit_count
        = DOT_MAP.countP (fun d => decide (dotPix cv row col d > THRESHOLD)) ∧
    (brailleCell cv row col).total_r
        = (DOT_MAP.map (fun d =>
            if dotPix cv row col d > THRESHOLD then (dotColor cv row col d).1 else 0)).sum ∧
    (brailleCell cv row col).total_g
        = (DOT_MAP.map (fun d =>
            if dotPix cv row col d > THRESHOLD then (dotColor cv row col d).2.1 else 0)).sum ∧
    (brailleCell cv row col).total_b
        = (DOT_MAP.map (fun d =>
            if dotPix cv row col d > THRESHOLD then (dotColor cv row col d).2.2 else 0)).sum ∧
    ((∀ d ∈ DOT_MAP, dotPix cv row col d > THRESHOLD) →
        Char.ofNat (0x2800 + (brailleCell cv row col).bits) = '⣿') ∧
    ((∀ d ∈ DOT_MAP, ¬(dotPix cv row col d > THRESHOLD)) →
        Char.ofNat (0x2800 + (brailleCell cv row col).bits) = '⠀') := by
  have hx0 : col * 2 < cv.width := by omega
  have hx1 : col * 2 + 1 < cv.width := by omega
  have hy0 : row * 4 < cv.height := by omega
  have hy1 : row * 4 + 1 < cv.height := by omega
  have hy2 : row * 4 + 2 < cv.height := by omega
  have hy3 : row * 4 + 3 < cv.height := by omega
  have hmain : (brailleCell cv row col).bits
        = (DOT_MAP.map (fun d => if dotPix cv row col d > THRESHOLD then d.2.2 else 0)).sum ∧
      (brailleCell cv row col).lit_count
        = DOT_MAP.countP (fun d => decide (dotPix cv row col d > THRESHOLD)) ∧
      (brailleCell cv row col).total_r
        = (DOT_MAP.map (fun d =>
            if dotPix cv row col d > THRESHOLD then (dotColor cv row col d).1 else 0)).sum ∧
      (brailleCell cv row col).total_g
        = (DOT_MAP.map (fun d =>
            if dotPix cv row col d > THRESHOLD then (dotColor cv row col d).2.1 else 0)).sum ∧
      (brailleCell cv row col).total_b
        = (DOT_MAP.map (fun d =>
            if dotPix cv row col d > THRESHOLD then (dotColor cv row col d).2.2 else 0)).sum := by
    by_cases h1 : cv.pixels.getD (row * 4 * cv.width + col * 2) 0 > THRESHOLD <;>
    by_cases h2 : cv.pixels.getD ((row * 4 + 1) * cv.width + col * 2) 0 > THRESHOLD <;>
    by_cases h3 : cv.pixels.getD ((row * 4 + 2) * cv.width + col * 2) 0 > THRESHOLD <;>
    by_cases h4 : cv.pixels.getD (row * 4 * cv.width + (col * 2 + 1)) 0 > THRESHOLD <;>
    by_cases h5 : cv.pixels.getD ((row * 4 + 1) * cv.width + (col * 2 + 1)) 0 > THRESHOLD <;>
    by_cases h6 : cv.pixels.getD ((row * 4 + 2) * cv.width + (col * 2 + 1)) 0 > THRESHOLD <;>
    by_cases h7 : cv.pixels.getD ((row * 4 + 3) * cv.width + col * 2) 0 > THRESHOLD <;>
    by_cases h8 : cv.pixels.getD ((row * 4 + 3) * cv.width + (col * 2 + 1)) 0 > THRESHOLD <;>
    · simp only [brailleCell, DOT_MAP, List.foldl_cons, List.foldl_nil, brailleDotStep,
        dotPix, dotColor, List.map_cons, List.map_nil, List.sum_cons, List.sum_nil,
        List.countP_cons, List.countP_nil, Nat.add_zero, hx0, hx1, hy0, hy1, hy2, hy3,
        and_self, and_true, true_and, if_true, h1, h2, h3, h4, h5, h6, h7, h8,
        decide_eq_true_eq, if_false, not_false_iff, Nat.zero_add]
      repeat' apply And.intro
      all_goals first | rfl | decide | omega
  refine ⟨hmain.1, hmain.2.1, hmain.2.2.1, hmain.2.2.2.1, hmain.2.2.2.2, ?_, ?_⟩
  · intro hall
    rw [hmain.1]
    have hsum : (DOT_MAP.map
        (fun d => if dotPix cv row col d > THRESHOLD then d.2.2 else 0)).sum = 255 := by
      simp only [DOT_MAP, List.map_cons, List.map_nil, List.sum_cons, List.sum_nil]
      rw [if_pos (hall (0, 0, 0x01) (by decide)), if_pos (hall (0, 1, 0x02) (by decide)),
        if_pos (hall (0, 2, 0x04) (by decide)), if_pos (hall (1, 0, 0x08) (by decide)),
        if_pos (hall (1, 1, 0x10) (by decide)), if_pos (hall (1, 2, 0x20) (by decide)),
        if_pos (hall (0, 3, 0x40) (by decide)), if_pos (hall (1, 3, 0x80) (by decide))]
      norm_num
    rw [hsum]
  · intro hdark
    rw [hmain.1]
    have hsum : (DOT_MAP.map
        (fun d => if dotPix cv row col d > THRESHOLD then d.2.2 else 0)).sum = 0 := by
      simp only [DOT_MAP, List.map_cons, List.map_nil, List.sum_cons, List.sum_nil]
      rw [if_neg (hdark (0, 0, 0x01) (by decide)), if_neg (hdark (0, 1, 0x02) (by decide)),
        if_neg (hdark (0, 2, 0x04) (by decide)), if_neg (hdark (1, 0, 0x08) (by decide)),
        if_neg (hdark (1, 1, 0x10) (by decide)), if_neg (hdark (1, 2, 0x20) (by decide)),
        if_neg (hdark (0, 3, 0x40) (by decide)), if_neg (hdark (1, 3, 0x80) (by decide))]
      norm_num
    rw [hsum]

/-- Witness for C4: the bitmask characterization and the fully-lit corner
case at the top-left cell of the concrete scenario canvas. -/
theorem braille_cell_encoding_witness :
    (brailleCell brailleScenarioCanvas 0 0).bits
        = (DOT_MAP.map (fun d =>
            if dotPix brailleScenarioCanvas 0 0 d > THRESHOLD then d.2.2 else 0)).sum ∧
    Char.ofNat (0x2800 + (brailleCell brailleScenarioCanvas 0 0).bits) = '⣿' :=
  ⟨(braille_cell_encoding brailleScenarioCanvas 0 0 (by decide) (by decide)).1,
   (braille_cell_encoding brailleScenarioCanvas 0 0 (by decide)
      (by decide)).2.2.2.2.2.1 (by decide)⟩

/-! ## HalfBlock colored cell (claim C5) -/

lemma map_color_shape_tc (cv : Canvas) (h : cv.color_mode = ColorMode.TrueColor)
    (r g b : Nat) : ∃ x y z, cv.map_color r g b = Color.Rgb x y z := by
  unfold Canvas.map_color
  rw [h]
  exact ⟨_, _, _, rfl⟩

lemma map_color_shape_a256 (cv : Canvas) (h : cv.color_mode = ColorMode.Ansi256)
    (r g b : Nat) : ∃ v, cv.map_color r g b = Color.AnsiValue v := by
  unfold Canvas.map_color
  rw [h]
  exact ⟨_, rfl⟩

lemma color_to_fg_shape (c : Color)
    (h : (∃ x y z, c = Color.Rgb x y z) ∨ (∃ v, c = Color.AnsiValue v)) :
    (color_to_fg c).take 3 = "38;".data ∧ color_to_fg c ≠ [] := by
  rcases h with ⟨x, y, z, rfl⟩ | ⟨v, rfl⟩
  · exact ⟨rfl, by simp [color_to_fg]⟩
  · exact ⟨rfl, by simp [color_to_fg]⟩

lemma color_to_bg_shape (c : Color)
    (h : (∃ x y z, c = Color.Rgb x y z) ∨ (∃ v, c = Color.AnsiValue v)) :
    (color_to_bg c).take 3 = "48;".data ∧ color_to_bg c ≠ [] := by
  rcases h with ⟨x, y, z, rfl⟩ | ⟨v, rfl⟩
  · exact ⟨rfl, by simp [color_to_bg]⟩
  · exact ⟨rfl, by simp [color_to_bg]⟩

/-- Claim C5 (amended from "non-Mono" to "TrueColor or Ansi256": Ansi16 is
a non-Mono mode but emits the basic-color SGR codes 30–47/90–107, not
38;/48;-prefixed parameters — see the counterexample): for a cell whose
top and bottom brightness are at or above the dark threshold 0.02 and
whose brightness-scaled mapped colors (`hbTopColor`/`hbBotColor`, each
channel pre-scaled as `channel * brightness` before `map_color`) are
distinct, the encoder emits the glyph ▀ with a 38;-prefixed foreground
parameter for the top pixel and a distinct 48;-prefixed background
parameter for the bottom pixel. -/
theorem halfblock_colored_cell (cv : Canvas) (row col : Nat)
    (hmode : cv.color_mode = ColorMode.TrueColor ∨ cv.color_mode = ColorMode.Ansi256)
    (htop : ¬(cv.pixels.getD ((row * 2) * cv.width + col) 0 < DARK_THRESHOLD))
    (hbot : ¬(cv.pixels.getD ((row * 2 + 1) * cv.width + col) 0 < DARK_THRESHOLD))
    (hdist : hbTopColor cv row col ≠ hbBotColor cv row col) :
    hbEmit cv row col ([], [], false)
      = ("\x1b[".data ++ color_to_fg (hbTopColor cv row col) ++ ";".data
          ++ color_to_bg (hbBotColor cv row col) ++ "m".data ++ ['▀'],
         (color_to_fg (hbTopColor cv row col), color_to_bg (hbBotColor cv row col), true)) ∧
    (color_to_fg (hbTopColor cv row col)).take 3 = "38;".data ∧
    (color_to_bg (hbBotColor cv row col)).take 3 = "48;".data ∧
    color_to_fg (hbTopColor cv row col) ≠ color_to_bg (hbBotColor cv row col) := by
  have hshape : ((∃ x y z, hbTopColor cv row col = Color.Rgb x y z) ∨
      (∃ v, hbTopColor cv row col = Color.AnsiValue v)) ∧
      ((∃ x y z, hbBotColor cv row col = Color.Rgb x y z) ∨
      (∃ v, hbBotColor cv row col = Color.AnsiValue v)) := by
    rcases hmode with hm | hm
    · exact ⟨Or.inl (map_color_shape_tc cv hm _ _ _), Or.inl (map_color_shape_tc cv hm _ _ _)⟩
    · exact ⟨Or.inr (map_color_shape_a256 cv hm _ _ _), Or.inr (map_color_shape_a256 cv hm _ _ _)⟩
  obtain ⟨hfg3, hfgne⟩ := color_to_fg_shape _ hshape.1
  obtain ⟨hbg3, hbgne⟩ := color_to_bg_shape _ hshape.2
  have hne48 : color_to_fg (hbTopColor cv row col) ≠ color_to_bg (hbBotColor cv row col) := by
    intro h
    rw [h, hbg3] at hfg3
    exact absurd hfg3 (by decide)
  have hmono : ¬ cv.color_mode = ColorMode.Mono := by
    rcases hmode with hm | hm <;> rw [hm] <;> decide
  refine ⟨?_, hfg3, hbg3, hne48⟩
  unfold hbEmit
  rw [if_neg hmono]
  rw [if_neg (by
    rintro ⟨h1, h2⟩
    exact htop h1)]
  dsimp only
  rw [if_pos ⟨hfgne, hbgne⟩]
  rw [if_pos hfgne, if_pos hbgne]

/-- Witness for C5 on a concrete TrueColor canvas with distinct
top/bottom colors at full brightness. -/
theorem halfblock_colored_cell_witness :
    hbEmit trueColorHalfBlockCanvas 0 0 ([], [], false)
      = ("\x1b[".data ++ color_to_fg (hbTopColor trueColorHalfBlockCanvas 0 0) ++ ";".data
          ++ color_to_bg (hbBotColor trueColorHalfBlockCanvas 0 0) ++ "m".data ++ ['▀'],
         (color_to_fg (hbTopColor trueColorHalfBlockCanvas 0 0),
          color_to_bg (hbBotColor trueColorHalfBlockCanvas 0 0), true)) ∧
    (color_to_fg (hbTopColor trueColorHalfBlockCanvas 0 0)).take 3 = "38;".data ∧
    (color_to_bg (hbBotColor trueColorHalfBlockCanvas 0 0)).take 3 = "48;".data ∧
    color_to_fg (hbTopColor trueColorHalfBlockCanvas 0 0)
      ≠ color_to_bg (hbBotColor trueColorHalfBlockCanvas 0 0) :=
  halfblock_colored_cell trueColorHalfBlockCanvas 0 0 (Or.inl rfl)
    (by with_unfolding_all decide) (by with_unfolding_all decide)
    (by with_unfolding_all decide)

/-- Counterexample to C5 as stated ("in a non-Mono color mode"): in Ansi16
mode — non-Mono — a cell with distinct above-threshold colors emits the
basic SGR codes "31" (foreground) and "44" (background), neither
38;- nor 48;-prefixed. -/
theorem halfblock_ansi16_counterexample :
    ansi16HalfBlockCanvas.color_mode ≠ ColorMode.Mono ∧
    ¬(ansi16HalfBlockCanvas.pixels.getD 0 0 < DARK_THRESHOLD) ∧
    ¬(ansi16HalfBlockCanvas.pixels.getD 1 0 < DARK_THRESHOLD) ∧
    hbTopColor ansi16HalfBlockCanvas 0 0 ≠ hbBotColor ansi16HalfBlockCanvas 0 0 ∧
    color_to_fg (hbTopColor ansi16HalfBlockCanvas 0 0) = "31".data ∧
    (color_to_fg (hbTopColor ansi16HalfBlockCanvas 0 0)).take 3 ≠ "38;".data ∧
    halfblock_render ansi16HalfBlockCanvas = "\x1b[31;44m▀\x1b[0m\x1b[2;1H".data := by
  with_unfolding_all decide

lemma ascii_render_eq (cv : Canvas) :
    ascii_render cv =
      ((List.range cv.term_size.2).map (asciiRow cv cv.term_size.1)).flatten := rfl

/-- Claim C6 (corrected): the Braille and HalfBlock encoders never emit a
newline, and the Ascii encoder never emits a newline provided no
`char_override` cell holds one (an override of `'\n'` is emitted verbatim,
refuting the unconditional claim); each encoder terminates every row with
an SGR reset (unconditional for Braille/Ascii, only when colors are active
for HalfBlock) followed by the absolute cursor move `ESC [ row+2 ; 1 H`;
and the concrete 4×8 Braille scenario renders row 1 as U+28FF U+2800 and
row 2 as U+2800 U+2800, each row so terminated. -/
theorem encoder_rows_no_newline_and_terminated (cv : Canvas) :
    (∀ c ∈ braille_render cv, c ≠ '\n') ∧
    (∀ c ∈ halfblock_render cv, c ≠ '\n') ∧
    ((∀ ch ∈ cv.char_override, ch ≠ '\n') → ∀ c ∈ ascii_render cv, c ≠ '\n') ∧
    (∀ tc row, ("\x1b[0m\x1b[".data ++ natToChars (row + 2) ++ ";1H".data).IsSuffix
        (brailleRow cv tc row)) ∧
    (∀ cols row, ("\x1b[0m\x1b[".data ++ natToChars (row + 2) ++ ";1H".data).IsSuffix
        (asciiRow cv cols row)) ∧
    (∀ tc row,
      ((if ((List.range tc).foldl (hbRowStep cv row) ([], ([], [], false))).2.2.2
          then "\x1b[0m".data else []) ++
        "\x1b[".data ++ natToChars (row + 2) ++ ";1H".data).IsSuffix
        (hbRow cv tc row)) ∧
    braille_render brailleScenarioCanvas = "⣿⠀\x1b[0m\x1b[2;1H⠀⠀\x1b[0m\x1b[3;1H".data := by
  refine ⟨?_, ?_, ?_, ?_, ?_, ?_, ?_⟩
  · intro c hc
    simp only [braille_render, List.mem_flatten, List.mem_map] at hc
    obtain ⟨l, ⟨row, hrow, rfl⟩, hcl⟩ := hc
    exact brailleRow_no_newline cv _ row c hcl
  · intro c hc
    simp only [halfblock_render, List.mem_flatten, List.mem_map] at hc
    obtain ⟨l, ⟨row, hrow, rfl⟩, hcl⟩ := hc
    exact hbRow_no_newline cv _ row c hcl
  · intro hover c hc
    rw [ascii_render_eq] at hc
    simp only [List.mem_flatten, List.mem_map] at hc
    obtain ⟨l, ⟨row, hrow, rfl⟩, hcl⟩ := hc
    exact asciiRow_no_newline cv _ row hover c hcl
  · intro tc row
    exact ⟨((List.range tc).foldl (brailleRowStep cv row) ([], [])).1, by
      simp [brailleRow, List.append_assoc]⟩
  · intro cols row
    exact ⟨((List.range cols).foldl (asciiRowStep cv row) ([], [])).1, by
      simp [asciiRow, List.append_assoc]⟩
  · intro tc row
    exact ⟨((List.range tc).foldl (hbRowStep cv row) ([], ([], [], false))).1, by
      simp [hbRow, List.append_assoc]⟩
  · with_unfolding_all decide

/-- The Ascii encoder emits a `char_override` newline verbatim, so the
unconditional no-newline reading of the claim fails. -/
theorem ascii_newline_override_counterexample :
    '\n' ∈ ascii_render asciiNewlineCanvas := by
  with_unfolding_all decide

/-- Witness: the override hypothesis of the Ascii conjunct discharged at a
concrete canvas with no newline overrides. -/
theorem encoder_rows_no_newline_and_terminated_witness :
    ∀ c ∈ ascii_render trueColorHalfBlockCanvas, c ≠ '\n' :=
  (encoder_rows_no_newline_and_terminated trueColorHalfBlockCanvas).2.2.1
    (by decide)

end Termflix
